import Mathlib

/-
Verification of the fenix-ai multilayer-perceptron library.

The JavaScript sources are shallowly embedded in Lean 4:
* JS numbers are idealised as real numbers (`ℝ`); the activation catalog
  uses `Real.exp`, `Real.tanh`, `Real.sqrt` exactly where the source uses
  `Math.exp`, `Math.tanh`, `Math.sqrt`.
* Stateful methods become functions returning the updated record together
  with an `Except` value mirroring a JS `throw`; a thrown plain
  `new Error(msg)` is embedded as `JsError.jsErr msg`, while an implicit
  runtime type error (reading `.length` of `undefined`) is
  `JsError.jsTypeError`.
* The ambient random generator (`Math.random()`, values in `[0,1)`) is
  passed explicitly as a function `ℕ → ℝ` giving the successive draws.
-/

open Real

/-- Embedding of an entry of `src/activations/index.js`: a pair of scalar
functions.  The entries of the reference catalog carry no `name` field. -/
structure ActivationFunction where
  func : ℝ → ℝ
  derivative : ℝ → ℝ

namespace activations

/-- sigmoid: `func: x => 1 / (1 + Math.exp(-Math.max(-500, Math.min(500, x))))`,
`derivative: x => x * (1 - x)`. -/
noncomputable def sigmoid : ActivationFunction where
  func := fun x => 1 / (1 + Real.exp (-(max (-500) (min 500 x))))
  derivative := fun x => x * (1 - x)

/-- relu: `func: x => Math.max(0, x)`, `derivative: x => x > 0 ? 1 : 0`. -/
noncomputable def relu : ActivationFunction where
  func := fun x => max 0 x
  derivative := fun x => if x > 0 then 1 else 0

/-- leakyRelu: `func: x => x > 0 ? x : 0.01 * x`,
`derivative: x => x > 0 ? 1 : 0.01`. -/
noncomputable def leakyRelu : ActivationFunction where
  func := fun x => if x > 0 then x else 0.01 * x
  derivative := fun x => if x > 0 then 1 else 0.01

/-- elu: `func: x => x >= 0 ? x : Math.exp(x) - 1`,
`derivative: x => x >= 0 ? 1 : Math.exp(x)`. -/
noncomputable def elu : ActivationFunction where
  func := fun x => if x ≥ 0 then x else Real.exp x - 1
  derivative := fun x => if x ≥ 0 then 1 else Real.exp x

/-- tanh: `func: x => Math.tanh(x)`, `derivative: x => 1 - x * x`. -/
noncomputable def tanh : ActivationFunction where
  func := fun x => Real.tanh x
  derivative := fun x => 1 - x * x

/-- swish: `func: x => x / (1 + Math.exp(-x))`; the derivative computes
`sig = 1 / (1 + Math.exp(-x))` and returns `sig + x * sig * (1 - sig)`. -/
noncomputable def swish : ActivationFunction where
  func := fun x => x / (1 + Real.exp (-x))
  derivative := fun x =>
    let sig := 1 / (1 + Real.exp (-x))
    sig + x * sig * (1 - sig)

/-- mish: `func: x => x * Math.tanh(Math.log(1 + Math.exp(x)))`; the
derivative computes `sp`, `tsp`, `sig` as in the source and returns
`tsp + x * sig * (1 - Math.pow(tsp, 2))`. -/
noncomputable def mish : ActivationFunction where
  func := fun x => x * Real.tanh (Real.log (1 + Real.exp x))
  derivative := fun x =>
    let sp := Real.log (1 + Real.exp x)
    let tsp := Real.tanh sp
    let sig := 1 / (1 + Real.exp (-x))
    tsp + x * sig * (1 - tsp ^ 2)

/-- sin: `func: x => Math.sin(x)`, `derivative: x => Math.cos(x)`. -/
noncomputable def sin : ActivationFunction where
  func := fun x => Real.sin x
  derivative := fun x => Real.cos x

/-- cos: `func: x => Math.cos(x)`, `derivative: x => -Math.sin(x)`. -/
noncomputable def cos : ActivationFunction where
  func := fun x => Real.cos x
  derivative := fun x => -Real.sin x

/-- gaussian: `func: x => Math.exp(-x * x)`,
`derivative: x => -2 * x * Math.exp(-x * x)`. -/
noncomputable def gaussian : ActivationFunction where
  func := fun x => Real.exp (-x * x)
  derivative := fun x => -2 * x * Real.exp (-x * x)

/-- step: `func: x => x > 0 ? 1 : 0`, `derivative: x => 0`. -/
noncomputable def step : ActivationFunction where
  func := fun x => if x > 0 then 1 else 0
  derivative := fun _ => 0

/-- linear: `func: x => x`, `derivative: x => 1`. -/
def linear : ActivationFunction where
  func := fun x => x
  derivative := fun _ => 1

end activations

/-- C10: `sigmoid.func` computes `1/(1+e^(−c))` where `c` is the input
clamped to `[−500, 500]` before exponentiation; hence for every real input,
however large in magnitude, the clamped exponent stays in a bounded range
(the exponential never exceeds `exp 500`, so the computation is
overflow-free) and the result lies strictly between `0` and `1`. -/
theorem sigmoid_func_clamped_and_in_unit_interval :
    ∀ x : ℝ,
      (-500 ≤ max (-500) (min 500 x) ∧ max (-500) (min 500 x) ≤ 500) ∧
      activations.sigmoid.func x
        = 1 / (1 + Real.exp (-(max (-500) (min 500 x)))) ∧
      Real.exp (-(max (-500) (min 500 x))) ≤ Real.exp 500 ∧
      0 < activations.sigmoid.func x ∧ activations.sigmoid.func x < 1 := by
  intro x
  have hlo : (-500 : ℝ) ≤ max (-500) (min 500 x) := le_max_left _ _
  have hhi : max (-500) (min 500 x) ≤ 500 :=
    max_le (by norm_num) (min_le_left _ _)
  have hexp : (0 : ℝ) < Real.exp (-(max (-500) (min 500 x))) := Real.exp_pos _
  have hden : (0 : ℝ) < 1 + Real.exp (-(max (-500) (min 500 x))) := by linarith
  refine ⟨⟨hlo, hhi⟩, rfl, ?_, ?_, ?_⟩
  · exact Real.exp_le_exp.2 (by linarith)
  · exact div_pos one_pos hden
  · show 1 / (1 + Real.exp (-(max (-500) (min 500 x)))) < 1
    rw [div_lt_one hden]
    linarith

/-! Derivative facts for the activation catalog (claim C1). -/

/-- Derivative of the real hyperbolic tangent, in the catalog's form. -/
theorem Real_tanh_hasDerivAt (y : ℝ) :
    HasDerivAt Real.tanh (1 - Real.tanh y ^ 2) y := by
  have h := (Real.hasDerivAt_sinh y).div (Real.hasDerivAt_cosh y) (Real.cosh_pos y).ne'
  have hfun : (fun x => Real.sinh x / Real.cosh x) = Real.tanh :=
    funext fun x => (Real.tanh_eq_sinh_div_cosh x).symm
  rw [hfun] at h
  convert h using 1
  have hc : Real.cosh y ≠ 0 := (Real.cosh_pos y).ne'
  rw [Real.tanh_eq_sinh_div_cosh, div_pow]
  field_simp
  rw [← pow_two (Real.cosh y), ← pow_two (Real.sinh y)]
  exact (Real.cosh_sq_sub_sinh_sq y).symm

/-- Derivative of the softplus `log (1 + exp x)` used inside `mish`. -/
theorem softplus_hasDerivAt (x : ℝ) :
    HasDerivAt (fun y : ℝ => Real.log (1 + Real.exp y))
      (Real.exp x / (1 + Real.exp x)) x :=
  ((Real.hasDerivAt_exp x).const_add 1).log (by positivity)

/-- The catalog's `gaussian.derivative` is the derivative of `gaussian.func`. -/
theorem gaussian_hasDerivAt (x : ℝ) :
    HasDerivAt activations.gaussian.func (activations.gaussian.derivative x) x := by
  have hx : HasDerivAt (fun y : ℝ => y) 1 x := hasDerivAt_id x
  have hmul : HasDerivAt (fun y : ℝ => -y * y) (-1 * x + -x * 1) x := hx.neg.mul hx
  have hexp := hmul.exp
  show HasDerivAt (fun y : ℝ => Real.exp (-y * y)) (-2 * x * Real.exp (-x * x)) x
  convert hexp using 1
  ring

/-- The catalog's `elu.derivative` is the derivative of `elu.func`,
including at the joint `x = 0` where both one-sided slopes are `1`. -/
theorem elu_hasDerivAt (x : ℝ) :
    HasDerivAt activations.elu.func (activations.elu.derivative x) x := by
  rcases lt_trichotomy x 0 with hx | rfl | hx
  · have hbase : HasDerivAt (fun y : ℝ => Real.exp y - 1) (Real.exp x) x :=
      (Real.hasDerivAt_exp x).sub_const 1
    have heq : activations.elu.func =ᶠ[nhds x] fun y => Real.exp y - 1 := by
      filter_upwards [eventually_lt_nhds hx] with y hy
      exact if_neg (not_le.mpr hy)
    have hd : activations.elu.derivative x = Real.exp x := if_neg (not_le.mpr hx)
    rw [hd]
    exact hbase.congr_of_eventuallyEq heq
  · have hbase : HasDerivAt (fun y : ℝ => Real.exp y - 1) 1 0 := by
      have h := (Real.hasDerivAt_exp 0).sub_const 1
      rwa [Real.exp_zero] at h
    have hval : ∀ y ∈ Set.Iic (0 : ℝ), activations.elu.func y = Real.exp y - 1 := by
      intro y hy
      have hy2 : y ≤ (0 : ℝ) := hy
      rcases eq_or_lt_of_le hy2 with h0 | h0
      · subst h0
        norm_num [activations.elu]
      · exact if_neg (not_le.mpr h0)
    have hIic : HasDerivWithinAt activations.elu.func 1 (Set.Iic 0) 0 :=
      (hbase.hasDerivWithinAt).congr hval (by norm_num [activations.elu])
    have hIci : HasDerivWithinAt activations.elu.func 1 (Set.Ici 0) 0 :=
      ((hasDerivAt_id (0 : ℝ)).hasDerivWithinAt).congr
        (fun y hy => if_pos hy) (by norm_num [activations.elu])
    have hu := hIic.union hIci
    rw [Set.Iic_union_Ici] at hu
    have hder := hasDerivWithinAt_univ.mp hu
    have hd : activations.elu.derivative 0 = 1 := if_pos le_rfl
    rwa [hd]
  · have heq : activations.elu.func =ᶠ[nhds x] fun y => y := by
      filter_upwards [eventually_gt_nhds hx] with y hy
      exact if_pos (le_of_lt hy)
    have hd : activations.elu.derivative x = 1 := if_pos (le_of_lt hx)
    rw [hd]
    exact (hasDerivAt_id x).congr_of_eventuallyEq heq

/-- The catalog's `swish.derivative` is the derivative of `swish.func`. -/
theorem swish_hasDerivAt (x : ℝ) :
    HasDerivAt activations.swish.func (activations.swish.derivative x) x := by
  have hneg : HasDerivAt (fun y : ℝ => -y) (-1) x := hasDerivAt_neg' x
  have hden : HasDerivAt (fun y : ℝ => 1 + Real.exp (-y)) (Real.exp (-x) * -1) x :=
    (hneg.exp).const_add 1
  have hne : (1 : ℝ) + Real.exp (-x) ≠ 0 := by positivity
  have h := (hasDerivAt_id x).div hden hne
  show HasDerivAt (fun y : ℝ => y / (1 + Real.exp (-y)))
      (1 / (1 + Real.exp (-x)) + x * (1 / (1 + Real.exp (-x))) *
        (1 - 1 / (1 + Real.exp (-x)))) x
  convert h using 1
  field_simp
  exact Or.inl (pow_two _)

/-- The catalog's `mish.derivative` is the derivative of `mish.func`. -/
theorem mish_hasDerivAt (x : ℝ) :
    HasDerivAt activations.mish.func (activations.mish.derivative x) x := by
  have hsp := softplus_hasDerivAt x
  have htanh := Real_tanh_hasDerivAt (Real.log (1 + Real.exp x))
  have hcomp := htanh.comp x hsp
  have h := (hasDerivAt_id x).mul hcomp
  have hsig : Real.exp x / (1 + Real.exp x) = 1 / (1 + Real.exp (-x)) := by
    have he : Real.exp x ≠ 0 := (Real.exp_pos x).ne'
    rw [Real.exp_neg]
    field_simp
    ring
  show HasDerivAt (fun y : ℝ => y * Real.tanh (Real.log (1 + Real.exp y)))
      (Real.tanh (Real.log (1 + Real.exp x)) +
        x * (1 / (1 + Real.exp (-x))) *
          (1 - Real.tanh (Real.log (1 + Real.exp x)) ^ 2)) x
  convert h using 1
  simp only [Function.comp_def, id_eq, one_mul]
  rw [← hsig]
  ring

/-- Off the breakpoint, `relu.derivative` is the derivative of `relu.func`. -/
theorem relu_hasDerivAt_of_ne (x : ℝ) (hx : x ≠ 0) :
    HasDerivAt activations.relu.func (activations.relu.derivative x) x := by
  rcases hx.lt_or_lt with hx | hx
  · have heq : activations.relu.func =ᶠ[nhds x] fun _ => (0 : ℝ) := by
      filter_upwards [eventually_lt_nhds hx] with y hy
      exact max_eq_left (le_of_lt hy)
    have hd : activations.relu.derivative x = 0 := if_neg (not_lt.mpr (le_of_lt hx))
    rw [hd]
    exact (hasDerivAt_const x 0).congr_of_eventuallyEq heq
  · have heq : activations.relu.func =ᶠ[nhds x] fun y => y := by
      filter_upwards [eventually_gt_nhds hx] with y hy
      exact max_eq_right (le_of_lt hy)
    have hd : activations.relu.derivative x = 1 := if_pos hx
    rw [hd]
    exact (hasDerivAt_id x).congr_of_eventuallyEq heq

/-- Off the breakpoint, `leakyRelu.derivative` is the derivative of
`leakyRelu.func`. -/
theorem leakyRelu_hasDerivAt_of_ne (x : ℝ) (hx : x ≠ 0) :
    HasDerivAt activations.leakyRelu.func (activations.leakyRelu.derivative x) x := by
  rcases hx.lt_or_lt with hx | hx
  · have hbase : HasDerivAt (fun y : ℝ => 0.01 * y) (0.01 * 1) x :=
      (hasDerivAt_id x).const_mul 0.01
    have heq : activations.leakyRelu.func =ᶠ[nhds x] fun y => 0.01 * y := by
      filter_upwards [eventually_lt_nhds hx] with y hy
      exact if_neg (not_lt.mpr (le_of_lt hy))
    have hd : activations.leakyRelu.derivative x = 0.01 :=
      if_neg (not_lt.mpr (le_of_lt hx))
    rw [hd]
    have h := hbase.congr_of_eventuallyEq heq
    simpa using h
  · have heq : activations.leakyRelu.func =ᶠ[nhds x] fun y => y := by
      filter_upwards [eventually_gt_nhds hx] with y hy
      exact if_pos hy
    have hd : activations.leakyRelu.derivative x = 1 := if_pos hx
    rw [hd]
    exact (hasDerivAt_id x).congr_of_eventuallyEq heq

/-- Off the breakpoint, `step.derivative` is the derivative of `step.func`. -/
theorem step_hasDerivAt_of_ne (x : ℝ) (hx : x ≠ 0) :
    HasDerivAt activations.step.func (activations.step.derivative x) x := by
  rcases hx.lt_or_lt with hx | hx
  · have heq : activations.step.func =ᶠ[nhds x] fun _ => (0 : ℝ) := by
      filter_upwards [eventually_lt_nhds hx] with y hy
      exact if_neg (not_lt.mpr (le_of_lt hy))
    exact (hasDerivAt_const x 0).congr_of_eventuallyEq heq
  · have heq : activations.step.func =ᶠ[nhds x] fun _ => (1 : ℝ) := by
      filter_upwards [eventually_gt_nhds hx] with y hy
      exact if_pos hy
    exact (hasDerivAt_const x 1).congr_of_eventuallyEq heq

/-- C1 counterexample: the claim asserts that for every catalog entry other
than `sigmoid`/`tanh`, `derivative x` equals the mathematical derivative of
`func` at `x`.  This fails for `step` at `x = 0`: `step.derivative 0 = 0`,
but `step.func` (which jumps from `0` to `1` at the origin) is not even
continuous at `0`, so no real number is its derivative there. -/
theorem step_func_has_no_derivative_at_zero :
    ¬ HasDerivAt activations.step.func (activations.step.derivative 0) 0 := by
  intro h
  have h0 : activations.step.func 0 = 0 := if_neg (lt_irrefl (0 : ℝ))
  have hcw : Filter.Tendsto activations.step.func
      (nhdsWithin 0 (Set.Ioi 0)) (nhds (0 : ℝ)) := by
    have hc := h.continuousAt.continuousWithinAt (s := Set.Ioi (0 : ℝ))
    rw [ContinuousWithinAt, h0] at hc
    exact hc
  have heq : activations.step.func =ᶠ[nhdsWithin (0 : ℝ) (Set.Ioi 0)]
      fun _ => (1 : ℝ) :=
    eventually_nhdsWithin_of_forall fun y hy => if_pos hy
  have h1 : Filter.Tendsto (fun _ : ℝ => (1 : ℝ))
      (nhdsWithin 0 (Set.Ioi 0)) (nhds (0 : ℝ)) :=
    Filter.Tendsto.congr' heq hcw
  have h2 : Filter.Tendsto (fun _ : ℝ => (1 : ℝ))
      (nhdsWithin 0 (Set.Ioi 0)) (nhds (1 : ℝ)) := tendsto_const_nhds
  exact one_ne_zero (tendsto_nhds_unique h2 h1)

/-- C1 (amended): in the reference activation catalog, `sigmoid.derivative`
and `tanh.derivative` take the post-activation output `y` and return
`y·(1−y)` and `1−y²` respectively, while every other catalog entry's
`derivative` takes the pre-activation input `x` directly and equals the
mathematical derivative of `func` at `x` wherever `func` is differentiable:
for `gaussian`, `linear`, `sin`, `cos`, `elu`, `swish` and `mish` at every
real `x` (in particular `gaussian.derivative x = −2x·e^(−x²)`,
`linear.derivative x = 1`, `sin.derivative x = cos x`, and
`elu.derivative x = 1` for `x ≥ 0` and `e^x` otherwise), and for `relu`,
`leakyRelu` and `step` at every `x ≠ 0` — at `x = 0` these three `func`s
have no mathematical derivative (see the counterexample). -/
theorem activations_derivative_convention :
    (∀ y : ℝ, activations.sigmoid.derivative y = y * (1 - y)) ∧
    (∀ y : ℝ, activations.tanh.derivative y = 1 - y ^ 2) ∧
    (∀ x : ℝ, HasDerivAt activations.gaussian.func (activations.gaussian.derivative x) x) ∧
    (∀ x : ℝ, HasDerivAt activations.linear.func (activations.linear.derivative x) x) ∧
    (∀ x : ℝ, HasDerivAt activations.sin.func (activations.sin.derivative x) x) ∧
    (∀ x : ℝ, HasDerivAt activations.cos.func (activations.cos.derivative x) x) ∧
    (∀ x : ℝ, HasDerivAt activations.elu.func (activations.elu.derivative x) x) ∧
    (∀ x : ℝ, HasDerivAt activations.swish.func (activations.swish.derivative x) x) ∧
    (∀ x : ℝ, HasDerivAt activations.mish.func (activations.mish.derivative x) x) ∧
    (∀ x : ℝ, x ≠ 0 → HasDerivAt activations.relu.func (activations.relu.derivative x) x) ∧
    (∀ x : ℝ, x ≠ 0 →
      HasDerivAt activations.leakyRelu.func (activations.leakyRelu.derivative x) x) ∧
    (∀ x : ℝ, x ≠ 0 → HasDerivAt activations.step.func (activations.step.derivative x) x) := by
  refine ⟨fun y => rfl, fun y => ?_, gaussian_hasDerivAt, fun x => hasDerivAt_id x,
    fun x => Real.hasDerivAt_sin x, fun x => Real.hasDerivAt_cos x, elu_hasDerivAt,
    swish_hasDerivAt, mish_hasDerivAt, relu_hasDerivAt_of_ne,
    leakyRelu_hasDerivAt_of_ne, step_hasDerivAt_of_ne⟩
  show 1 - y * y = 1 - y ^ 2
  ring

/-- Witness for C1: the `relu` clause applied at the concrete point `x = 1`. -/
theorem activations_derivative_convention_witness :
    (1 : ℝ) ≠ 0 ∧ HasDerivAt activations.relu.func (activations.relu.derivative 1) 1 :=
  ⟨one_ne_zero,
    activations_derivative_convention.2.2.2.2.2.2.2.2.2.1 1 one_ne_zero⟩

/-! Embedding of the stateful core: `Neuron.js`, `Layer.js`, `Network.js`
(the validated implementation with `isCompiled` and option handling).
Methods that mutate `this` return the updated record next to an `Except`
mirroring a JS `throw`; on a throw the returned record is the receiver as
the aborted method left it (JS mutations already performed stay visible). -/

/-- A JS error observable from the embedded methods: an explicitly thrown
`new Error(msg)` (`jsErr`), or the implicit runtime `TypeError` raised by
reading a property of `undefined` (`jsTypeError`). -/
inductive JsError where
  | jsErr (msg : String)
  | jsTypeError
deriving DecidableEq

/-- A JS number: a finite double (idealised as a real) or one of the
special values `Infinity`, `-Infinity`, `NaN`. -/
inductive JsNum where
  | fin (x : ℝ)
  | posInf
  | negInf
  | nan

/-- A JS value passed where a number is expected: `num` for actual numbers,
`nonNum` for every value with `typeof ≠ 'number'` (strings, null, …). -/
inductive JsVal where
  | num (v : JsNum)
  | nonNum

/-- The JS comparison `v <= 0`: false for `NaN` and `Infinity`, true for
`-Infinity`, the real comparison for finite values. -/
noncomputable def JsNum.leZero : JsNum → Bool
  | .fin x => decide (x ≤ 0)
  | .posInf => false
  | .negInf => true
  | .nan => false

/-- The JS comparison `x < v` for a finite left operand: anything finite is
below `Infinity`, nothing is below `-Infinity` or `NaN`. -/
noncomputable def JsNum.ltFin (x : ℝ) : JsNum → Bool
  | .fin b => decide (x < b)
  | .posInf => true
  | .negInf => false
  | .nan => false

/-- Numeric reading of a stored JS number.  Every theorem below that runs
training arithmetic does so at a finite learning rate, where this reading
is exact; the special values only ever get stored and compared. -/
def JsNum.toReal : JsNum → ℝ
  | .fin x => x
  | _ => 0

/-- State of a `Neuron` (src/core/Neuron.js). -/
structure Neuron where
  weights : List ℝ
  bias : ℝ
  lastInputs : Option (List ℝ)
  lastOutput : Option ℝ

namespace Neuron

/-- `initializeWeights(inputSize)`: `limit = Math.sqrt(6 / (inputSize + 1))`
and `inputSize` entries `(Math.random() * 2 - 1) * limit`; the `i`-th
`Math.random()` call is `rnd i`. -/
noncomputable def initializeWeights (inputSize : ℕ) (rnd : ℕ → ℝ) : List ℝ :=
  (List.range inputSize).map fun i =>
    (rnd i * 2 - 1) * Real.sqrt (6 / (inputSize + 1))

/-- `initializeBias()`: `(Math.random() * 2 - 1) * 0.1`. -/
noncomputable def initializeBias (r : ℝ) : ℝ :=
  (r * 2 - 1) * 0.1

/-- The `Neuron` constructor: random weights, then a random bias (draw
number `inputSize`), and null caches. -/
noncomputable def construct (inputSize : ℕ) (rnd : ℕ → ℝ) : Neuron where
  weights := initializeWeights inputSize rnd
  bias := initializeBias (rnd inputSize)
  lastInputs := none
  lastOutput := none

/-- `calculateWeightedSum(inputs)`:
`inputs.reduce((sum, input, index) => sum + input * this.weights[index], this.bias)`.
Its only caller runs it after `validateInputs`, so `inputs` and `weights`
have equal length and the index-wise pairing is a `zip`. -/
noncomputable def calculateWeightedSum (n : Neuron) (inputs : List ℝ) : ℝ :=
  (inputs.zip n.weights).foldl (fun sum p => sum + p.1 * p.2) n.bias

/-- `validateInputs(inputs)`: `inputs` must be an array (a non-array is
`none` here) of the weights' length; the JS finite-number check on the
entries is vacuous in the real-number idealisation. -/
def validateInputs (n : Neuron) (inputs : Option (List ℝ)) : Except JsError Unit :=
  match inputs with
  | none => .error (.jsErr "Input data must be an array")
  | some l =>
    if l.length ≠ n.weights.length then
      .error (.jsErr ("Input size (" ++ toString l.length ++
        ") does not match number of weights (" ++ toString n.weights.length ++ ")"))
    else .ok ()

/-- `forward(inputs, activationFunction)`: validate, cache a copy of the
inputs, compute the weighted sum, apply the activation, cache and return
the output.  (`inputs.getD []` is only evaluated after `validateInputs`
accepted, so `inputs` is an actual array there.) -/
noncomputable def forward (n : Neuron) (inputs : Option (List ℝ))
    (activationFunction : ℝ → ℝ) : Except JsError ℝ × Neuron :=
  match n.validateInputs inputs with
  | .error e => (.error e, n)
  | .ok () =>
    let l := inputs.getD []
    let n1 := { n with lastInputs := some l }
    let out := activationFunction (calculateWeightedSum n1 l)
    (.ok out, { n1 with lastOutput := some out })

/-- `updateWeights(delta, learningRate)`: a StateError when there was no
prior forward call; otherwise `weights[i] += learningRate * delta *
lastInputs[i]` for every index `i` and `bias += learningRate * delta`.
(`lastInputs` always has the weights' length in states produced by the
embedded API, so the index-wise pairing is a `zip`.) -/
noncomputable def updateWeights (n : Neuron) (delta learningRate : ℝ) :
    Except JsError Unit × Neuron :=
  match n.lastInputs with
  | none => (.error (.jsErr "Cannot update weights: no last inputs data available"), n)
  | some li =>
    (.ok (), { n with
      weights := (n.weights.zip li).map fun p => p.1 + learningRate * delta * p.2,
      bias := n.bias + learningRate * delta })

/-- `setWeights(weights, bias)`: rejects a non-array or a length mismatch;
stores a copy of the weights and the new bias. -/
def setWeights (n : Neuron) (weights : Option (List ℝ)) (bias : ℝ) :
    Except JsError Unit × Neuron :=
  match weights with
  | none => (.error (.jsErr "Invalid weights format"), n)
  | some w =>
    if w.length ≠ n.weights.length then
      (.error (.jsErr "Invalid weights format"), n)
    else (.ok (), { n with weights := w, bias := bias })

end Neuron

/-- The activation-function argument as received from JS: possibly missing
`func` or `derivative` members (a wholly absent/non-object argument is an
outer `none`). -/
structure ActArg where
  func : Option (ℝ → ℝ)
  derivative : Option (ℝ → ℝ)

/-- A well-formed catalog entry viewed as a constructor argument. -/
def ActivationFunction.arg (a : ActivationFunction) : Option ActArg :=
  some ⟨some a.func, some a.derivative⟩

/-- State of a `Layer` (src/core/Layer.js). -/
structure Layer where
  neurons : List Neuron
  activationFunction : ActivationFunction
  outputs : List ℝ
  size : ℕ
  inputSize : ℕ

namespace Layer

/-- `validateParameters(neuronCount, inputSize, activationFunction)`:
positive-integer checks (count arguments are idealised as rationals, so
`Number.isInteger q` is `q.den = 1`) and the activation-shape check, in
source order. -/
def validateParameters (neuronCount inputSize : ℚ) (actArg : Option ActArg) :
    Except JsError Unit :=
  if neuronCount.den ≠ 1 ∨ neuronCount ≤ 0 then
    .error (.jsErr "Number of neurons must be a positive integer")
  else if inputSize.den ≠ 1 ∨ inputSize ≤ 0 then
    .error (.jsErr "Input size must be a positive integer")
  else
    match actArg with
    | none =>
      .error (.jsErr "Activation function must contain func and derivative methods")
    | some a =>
      match a.func, a.derivative with
      | some _, some _ => .ok ()
      | _, _ =>
        .error (.jsErr "Activation function must contain func and derivative methods")

/-- `createNeurons(neuronCount, inputSize)`: `neuronCount` fresh neurons;
neuron `k` consumes the `inputSize + 1` draws starting at
`k * (inputSize + 1)`. -/
noncomputable def createNeurons (neuronCount inputSize : ℕ) (rnd : ℕ → ℝ) :
    List Neuron :=
  (List.range neuronCount).map fun k =>
    Neuron.construct inputSize (fun i => rnd (k * (inputSize + 1) + i))

/-- The `Layer` constructor: validate, create the neurons, store the shared
activation and the sizes (the final `match` arm is unreachable once
`validateParameters` accepted). -/
noncomputable def construct (neuronCount inputSize : ℚ) (actArg : Option ActArg)
    (rnd : ℕ → ℝ) : Except JsError Layer :=
  match validateParameters neuronCount inputSize actArg with
  | .error e => .error e
  | .ok () =>
    match actArg with
    | some ⟨some f, some d⟩ =>
      .ok { neurons := createNeurons neuronCount.num.toNat inputSize.num.toNat rnd
            activationFunction := ⟨f, d⟩
            outputs := []
            size := neuronCount.num.toNat
            inputSize := inputSize.num.toNat }
    | _ =>
      .error (.jsErr "Activation function must contain func and derivative methods")

/-- `validateInputs(inputs)` of `Layer`: array of length `inputSize` (the
embedded callers always pass actual arrays). -/
def validateInputs (l : Layer) (inputs : List ℝ) : Except JsError Unit :=
  if inputs.length ≠ l.inputSize then
    .error (.jsErr ("Input size (" ++ toString inputs.length ++
      ") does not match expected size (" ++ toString l.inputSize ++ ")"))
  else .ok ()

/-- The `neurons.map(neuron => neuron.forward(...))` of `Layer.forward`,
threading per-neuron state; when one neuron throws, the earlier neurons
keep their new state (JS mutates the objects in place) while the map's
result is discarded. -/
noncomputable def forwardNeurons (inputs : List ℝ) (f : ℝ → ℝ) :
    List Neuron → Except JsError (List ℝ) × List Neuron
  | [] => (.ok [], [])
  | n :: rest =>
    match n.forward (some inputs) f with
    | (.error e, n') => (.error e, n' :: rest)
    | (.ok out, n') =>
      match forwardNeurons inputs f rest with
      | (.error e, rest') => (.error e, n' :: rest')
      | (.ok outs, rest') => (.ok (out :: outs), n' :: rest')

/-- `Layer.forward(inputs)`: validate, evaluate every neuron with the shared
activation's `func`, cache the outputs and return a copy of them. -/
noncomputable def forward (l : Layer) (inputs : List ℝ) :
    Except JsError (List ℝ) × Layer :=
  match l.validateInputs inputs with
  | .error e => (.error e, l)
  | .ok () =>
    match forwardNeurons inputs l.activationFunction.func l.neurons with
    | (.error e, ns) => (.error e, { l with neurons := ns })
    | (.ok outs, ns) => (.ok outs, { l with neurons := ns, outputs := outs })

/-- `validateTargets(targets)`: an array of the neurons' length. -/
def validateTargets (l : Layer) (targets : Option (List ℝ)) : Except JsError Unit :=
  match targets with
  | none =>
    .error (.jsErr ("Target size (undefined) does not match number of neurons (" ++
      toString l.neurons.length ++ ")"))
  | some t =>
    if t.length ≠ l.neurons.length then
      .error (.jsErr ("Target size (" ++ toString t.length ++
        ") does not match number of neurons (" ++ toString l.neurons.length ++ ")"))
    else .ok ()

/-- The neuron loop of `backwardOutput` from index `i` on: JS reads
`targets[i]` and `this.outputs[i]` (both in range in every state the public
API reaches; out-of-range reads are modelled by the default `0`). -/
noncomputable def backOutGo (act : ActivationFunction) (targets outputs : List ℝ)
    (learningRate : ℝ) : List Neuron → ℕ → Except JsError (List ℝ) × List Neuron
  | [], _ => (.ok [], [])
  | n :: rest, i =>
    let error := targets.getD i 0 - outputs.getD i 0
    let delta := error * act.derivative (outputs.getD i 0)
    match n.updateWeights delta learningRate with
    | (.error e, n') => (.error e, n' :: rest)
    | (.ok (), n') =>
      match backOutGo act targets outputs learningRate rest (i + 1) with
      | (.error e, rest') => (.error e, n' :: rest')
      | (.ok ds, rest') => (.ok (delta :: ds), n' :: rest')

/-- `backwardOutput(targets, learningRate)`: validate, then per neuron `i`
compute `error = targets[i] - outputs[i]`,
`delta = error * derivative(outputs[i])`, update that neuron's weights, and
return the delta vector. -/
noncomputable def backwardOutput (l : Layer) (targets : Option (List ℝ))
    (learningRate : ℝ) : Except JsError (List ℝ) × Layer :=
  match l.validateTargets targets with
  | .error e => (.error e, l)
  | .ok () =>
    match backOutGo l.activationFunction (targets.getD []) l.outputs learningRate
        l.neurons 0 with
    | (.error e, ns) => (.error e, { l with neurons := ns })
    | (.ok ds, ns) => (.ok ds, { l with neurons := ns })

/-- `validateBackpropagationInputs(deltas, weights)`: both are arrays (the
embedded callers always pass arrays) of equal length. -/
def validateBackpropagationInputs (deltas : List ℝ) (weights : List (List ℝ)) :
    Except JsError Unit :=
  if deltas.length ≠ weights.length then
    .error (.jsErr "Number of deltas must match number of weight vectors")
  else .ok ()

/-- `calculateNeuronError(neuronIndex, nextLayerDeltas, nextLayerWeights)`:
`nextLayerDeltas.reduce((error, delta, j) => error + delta *
nextLayerWeights[j][neuronIndex], 0)`; the two lists have equal (validated)
length, so the index-wise pairing is a `zip`. -/
noncomputable def calculateNeuronError (neuronIndex : ℕ) (nextLayerDeltas : List ℝ)
    (nextLayerWeights : List (List ℝ)) : ℝ :=
  (nextLayerDeltas.zip nextLayerWeights).foldl
    (fun error p => error + p.1 * p.2.getD neuronIndex 0) 0

/-- The neuron loop of `backwardHidden` from index `i` on. -/
noncomputable def backHidGo (act : ActivationFunction) (nextLayerDeltas : List ℝ)
    (nextLayerWeights : List (List ℝ)) (outputs : List ℝ) (learningRate : ℝ) :
    List Neuron → ℕ → Except JsError (List ℝ) × List Neuron
  | [], _ => (.ok [], [])
  | n :: rest, i =>
    let error := calculateNeuronError i nextLayerDeltas nextLayerWeights
    let delta := error * act.derivative (outputs.getD i 0)
    match n.updateWeights delta learningRate with
    | (.error e, n') => (.error e, n' :: rest)
    | (.ok (), n') =>
      match backHidGo act nextLayerDeltas nextLayerWeights outputs learningRate rest
          (i + 1) with
      | (.error e, rest') => (.error e, n' :: rest')
      | (.ok ds, rest') => (.ok (delta :: ds), n' :: rest')

/-- `backwardHidden(nextLayerDeltas, nextLayerWeights, learningRate)`. -/
noncomputable def backwardHidden (l : Layer) (nextLayerDeltas : List ℝ)
    (nextLayerWeights : List (List ℝ)) (learningRate : ℝ) :
    Except JsError (List ℝ) × Layer :=
  match validateBackpropagationInputs nextLayerDeltas nextLayerWeights with
  | .error e => (.error e, l)
  | .ok () =>
    match backHidGo l.activationFunction nextLayerDeltas nextLayerWeights l.outputs
        learningRate l.neurons 0 with
    | (.error e, ns) => (.error e, { l with neurons := ns })
    | (.ok ds, ns) => (.ok ds, { l with neurons := ns })

/-- `getConnectionWeights()`: the neurons' weight rows. -/
def getConnectionWeights (l : Layer) : List (List ℝ) :=
  l.neurons.map fun n => n.weights

/-- `reset()`: clear the cached outputs and every neuron's caches. -/
def reset (l : Layer) : Layer :=
  { l with
    outputs := []
    neurons := l.neurons.map fun n => { n with lastInputs := none, lastOutput := none } }

end Layer

/-- A training example `{input, target}`; a missing field is `none`. -/
structure TrainExample where
  input : Option (List ℝ)
  target : Option (List ℝ)

/-- The `options` argument of `train`: `verbose` only drives console
output (an external sink, not modelled); `validationData` and
`earlyStoppingPatience` are absent/null when `none`. -/
structure TrainOptions where
  validationData : Option (List TrainExample)
  earlyStoppingPatience : Option ℚ

/-- JS truthiness of `validationData && earlyStoppingPatience`: an array is
always truthy, a number is truthy unless it is `0`. -/
def TrainOptions.esActive (o : TrainOptions) : Bool :=
  o.validationData.isSome &&
    (match o.earlyStoppingPatience with
     | none => false
     | some p => decide (p ≠ 0))

/-- State of a `Network` (src/core/Network.js). -/
structure Network where
  layers : List Layer
  learningRate : JsNum
  trainingHistory : List ℝ
  isCompiled : Bool

namespace Network

/-- The `Network` constructor. -/
noncomputable def new : Network where
  layers := []
  learningRate := .fin 0.1
  trainingHistory := []
  isCompiled := false

/-- `validateLayerParameters(neuronCount, activationFunction, inputSize)`:
positive-integer neuron count, an activation object with a callable `func`,
and — only when no layer exists yet — a non-null positive `inputSize`. -/
def validateLayerParameters (net : Network) (neuronCount : ℚ)
    (actArg : Option ActArg) (inputSize : Option ℚ) : Except JsError Unit :=
  if neuronCount.den ≠ 1 ∨ neuronCount ≤ 0 then
    .error (.jsErr "Number of neurons must be a positive integer")
  else
    match actArg with
    | none => .error (.jsErr "Activation function must be an object with func method")
    | some a =>
      match a.func with
      | none => .error (.jsErr "Activation function must be an object with func method")
      | some _ =>
        if net.layers.length = 0 then
          match inputSize with
          | none => .error (.jsErr "Input size must be specified for the first layer")
          | some q =>
            if q ≤ 0 then
              .error (.jsErr "Input size must be specified for the first layer")
            else .ok ()
        else .ok ()

/-- `determineLayerInputSize(inputSize)`: the caller's value for the first
layer (its validation already excluded `null` there), else the previous
layer's `size` — the caller's value is ignored. -/
def determineLayerInputSize (net : Network) (inputSize : Option ℚ) : ℚ :=
  if net.layers.length = 0 then inputSize.getD 0
  else
    match net.layers.getLast? with
    | some l => (l.size : ℚ)
    | none => 0

/-- `addLayer(neuronCount, activationFunction, inputSize = null)`: validate,
build the layer, push it and invalidate `isCompiled`; chainable. -/
noncomputable def addLayer (net : Network) (neuronCount : ℚ) (actArg : Option ActArg)
    (inputSize : Option ℚ) (rnd : ℕ → ℝ) : Except JsError Unit × Network :=
  match net.validateLayerParameters neuronCount actArg inputSize with
  | .error e => (.error e, net)
  | .ok () =>
    match Layer.construct neuronCount (net.determineLayerInputSize inputSize) actArg
        rnd with
    | .error e => (.error e, net)
    | .ok layer =>
      (.ok (), { net with layers := net.layers ++ [layer], isCompiled := false })

/-- `compile()`: rejects an empty network, else sets `isCompiled`. -/
def compile (net : Network) : Except JsError Unit × Network :=
  if net.layers.length = 0 then
    (.error (.jsErr "Network must contain at least one layer"), net)
  else (.ok (), { net with isCompiled := true })

/-- `validatePredictionInputs(inputs)`: an array, a non-empty layer stack,
and the first layer's `inputSize` as length. -/
def validatePredictionInputs (net : Network) (inputs : Option (List ℝ)) :
    Except JsError Unit :=
  match inputs with
  | none => .error (.jsErr "Input data must be an array")
  | some l =>
    match net.layers with
    | [] => .error (.jsErr "Network contains no layers")
    | l0 :: _ =>
      if l.length ≠ l0.inputSize then
        .error (.jsErr ("Input size (" ++ toString l.length ++
          ") does not match expected size (" ++ toString l0.inputSize ++ ")"))
      else .ok ()

/-- The `for (const layer of this.layers)` fold of `predict`, threading the
mutated layers (each `Layer.forward` updates neuron caches in place). -/
noncomputable def predictGo (inputs : List ℝ) :
    List Layer → Except JsError (List ℝ) × List Layer
  | [] => (.ok inputs, [])
  | l :: rest =>
    match l.forward inputs with
    | (.error e, l') => (.error e, l' :: rest)
    | (.ok outs, l') =>
      match predictGo outs rest with
      | (.error e, rest') => (.error e, l' :: rest')
      | (.ok finalOuts, rest') => (.ok finalOuts, l' :: rest')

/-- `predict(inputs)`: validate, then forward the vector through every
layer in order. -/
noncomputable def predict (net : Network) (inputs : Option (List ℝ)) :
    Except JsError (List ℝ) × Network :=
  match net.validatePredictionInputs inputs with
  | .error e => (.error e, net)
  | .ok () =>
    match predictGo (inputs.getD []) net.layers with
    | (.error e, ls) => (.error e, { net with layers := ls })
    | (.ok outs, ls) => (.ok outs, { net with layers := ls })

/-- `calculateError(predicted, actual)`: mean squared error over the output
components; reading `actual.length` of a missing target is a TypeError. -/
noncomputable def calculateError (predicted : List ℝ) (actual : Option (List ℝ)) :
    Except JsError ℝ :=
  match actual with
  | none => .error .jsTypeError
  | some a =>
    if predicted.length ≠ a.length then
      .error (.jsErr "Predicted and actual values must have the same length")
    else
      .ok (((predicted.zip a).foldl (fun sum p => sum + (p.1 - p.2) ^ 2) 0) /
        predicted.length)

/-- The hidden-layer pass of `backpropagate` over the reversed layer stack:
`lNext` is the layer just processed (already updated — JS mutates in place,
and `getConnectionWeights` aliases the live weight arrays), `deltas` its
delta vector.  Returns the updated layers, still in reversed order. -/
noncomputable def backHiddenGo (learningRate : ℝ) :
    Layer → List ℝ → List Layer → Except JsError Unit × List Layer
  | lNext, _, [] => (.ok (), [lNext])
  | lNext, deltas, l :: rest =>
    match l.backwardHidden deltas lNext.getConnectionWeights learningRate with
    | (.error e, l') => (.error e, lNext :: l' :: rest)
    | (.ok ds, l') =>
      match backHiddenGo learningRate l' ds rest with
      | (res, ls) => (res, lNext :: ls)

/-- `backpropagate(targets)`: output layer first via `backwardOutput`, then
every hidden layer from the last one down via `backwardHidden`.  On an
empty stack, `this.layers[length - 1]` is `undefined` and calling a method
on it is a TypeError. -/
noncomputable def backpropagate (net : Network) (targets : Option (List ℝ)) :
    Except JsError Unit × Network :=
  match net.layers.reverse with
  | [] => (.error .jsTypeError, net)
  | lastLayer :: restRev =>
    match lastLayer.backwardOutput targets net.learningRate.toReal with
    | (.error e, l') => (.error e, { net with layers := (l' :: restRev).reverse })
    | (.ok deltas, l') =>
      match backHiddenGo net.learningRate.toReal l' deltas restRev with
      | (res, lsRev) => (res, { net with layers := lsRev.reverse })

/-- The example loop of `evaluateValidation`: forward-only passes (they
still refresh the layer caches) accumulating the per-example error. -/
noncomputable def evalValGo : Network → ℝ → List TrainExample →
    Except JsError ℝ × Network
  | net, total, [] => (.ok total, net)
  | net, total, ex :: rest =>
    match net.predict ex.input with
    | (.error e, net') => (.error e, net')
    | (.ok out, net') =>
      match calculateError out ex.target with
      | .error e => (.error e, net')
      | .ok err => evalValGo net' (total + err) rest

/-- `evaluateValidation(validationData)`: mean error over the validation
set (the JS `NaN` of an empty set shows up as `0/0 = 0` here; the embedded
claims only evaluate it on non-empty sets). -/
noncomputable def evaluateValidation (net : Network)
    (validationData : List TrainExample) : Except JsError ℝ × Network :=
  match evalValGo net 0 validationData with
  | (.error e, net') => (.error e, net')
  | (.ok total, net') => (.ok (total / validationData.length), net')

/-- The size-consistency loop of `validateTrainingData`: JS reads
`example.input.length` and `example.target.length` for every example, so a
missing field on any visited example raises a TypeError, in this order. -/
def validateSizesGo (inputSize outputSize : ℕ) :
    List TrainExample → Except JsError Unit
  | [] => .ok ()
  | ex :: rest =>
    match ex.input with
    | none => .error .jsTypeError
    | some i =>
      if i.length ≠ inputSize then
        .error (.jsErr "All input vectors must have the same size")
      else
        match ex.target with
        | none => .error .jsTypeError
        | some t =>
          if t.length ≠ outputSize then
            .error (.jsErr "All target vectors must have the same size")
          else validateSizesGo inputSize outputSize rest

/-- `validateTrainingData(trainingData)`: a non-empty array whose first
example has truthy `input` and `target` (an array, even empty, is truthy;
`undefined` is not), followed by the size-consistency loop over all
examples keyed to the first example's lengths. -/
def validateTrainingData (trainingData : Option (List TrainExample)) :
    Except JsError Unit :=
  match trainingData with
  | none => .error (.jsErr "Training data must be a non-empty array")
  | some [] => .error (.jsErr "Training data must be a non-empty array")
  | some (first :: rest) =>
    match first.input, first.target with
    | none, _ => .error (.jsErr "Each example must contain input and target fields")
    | _, none => .error (.jsErr "Each example must contain input and target fields")
    | some fi, some ft => validateSizesGo fi.length ft.length (first :: rest)

/-- `prepareForTraining(trainingData)`: auto-compile when needed, reset the
training history, then check architecture/data compatibility.  Note that
the two mutations precede the compatibility checks, so a network failing
those checks keeps the fresh `isCompiled`/empty history.  (`trainingData`
is non-empty with present fields here: `train` validated it first.) -/
noncomputable def prepareForTraining (net : Network)
    (trainingData : List TrainExample) : Except JsError Unit × Network :=
  match (if ¬net.isCompiled then net.compile else (.ok (), net)) with
  | (.error e, net1) => (.error e, net1)
  | (.ok (), net1) =>
    let net2 := { net1 with trainingHistory := ([] : List ℝ) }
    let inputSize := ((trainingData.headD ⟨none, none⟩).input.getD []).length
    let outputSize := ((trainingData.headD ⟨none, none⟩).target.getD []).length
    match net2.layers with
    | [] => (.error .jsTypeError, net2)
    | l0 :: _ =>
      if l0.inputSize ≠ inputSize then
        (.error (.jsErr ("Network input size (" ++ toString l0.inputSize ++
          ") does not match input data size (" ++ toString inputSize ++ ")")), net2)
      else
        match net2.layers.getLast? with
        | none => (.error .jsTypeError, net2)
        | some lastL =>
          if lastL.size ≠ outputSize then
            (.error (.jsErr ("Output layer size (" ++ toString lastL.size ++
              ") does not match target data size (" ++ toString outputSize ++ ")")),
              net2)
          else (.ok (), net2)

end Network

/-- The in-place swap `[array[i], array[j]] = [array[j], array[i]]` of
`shuffleArray`, guarded to the in-bounds case — the only one the shuffle
reaches when the random draws lie in `[0,1)`. -/
def listSwap {α : Type} (l : List α) (i j : ℕ) : List α :=
  match l[i]?, l[j]? with
  | some a, some b => (l.set i b).set j a
  | _, _ => l

/-- The Fisher–Yates loop of `shuffleArray`: the loop variable descends
from `array.length − 1` to `1`; the `k`-th draw gives
`j = Math.floor(Math.random() * (i + 1))`. -/
noncomputable def shuffleGo {α : Type} (rnd : ℕ → ℝ) :
    List α → ℕ → ℕ → List α
  | l, 0, _ => l
  | l, i + 1, k => shuffleGo rnd (listSwap l (i + 1) ⌊rnd k * ((i : ℝ) + 2)⌋₊) i (k + 1)

/-- `shuffleArray(array)` applied (as in `trainEpoch`) to a copy of the
list. -/
noncomputable def shuffleArray {α : Type} (l : List α) (rnd : ℕ → ℝ) : List α :=
  shuffleGo rnd l (l.length - 1) 0

namespace Network

/-- The example loop of `trainEpoch`: one forward pass (`predict`), error
accumulation, then an immediate `backpropagate` — the next example sees the
updated weights. -/
noncomputable def runExamples : Network → List TrainExample → ℝ →
    Except JsError ℝ × Network
  | net, [], total => (.ok total, net)
  | net, ex :: rest, total =>
    match net.predict ex.input with
    | (.error e, net1) => (.error e, net1)
    | (.ok out, net1) =>
      match calculateError out ex.target with
      | .error e => (.error e, net1)
      | .ok err =>
        match net1.backpropagate ex.target with
        | (.error e, net2) => (.error e, net2)
        | (.ok (), net2) => runExamples net2 rest (total + err)

/-- `trainEpoch(trainingData)`: Fisher–Yates shuffle a copy of the data,
run the example loop over the shuffled order, and return
`totalError / trainingData.length`. -/
noncomputable def trainEpoch (net : Network) (trainingData : List TrainExample)
    (rnd : ℕ → ℝ) : Except JsError ℝ × Network :=
  let shuffledData := shuffleArray trainingData rnd
  match runExamples net shuffledData 0 with
  | (.error e, net') => (.error e, net')
  | (.ok total, net') => (.ok (total / trainingData.length), net')

/-- The epoch loop of `train`.  `remaining` counts down from `epochs`,
`epoch` is the JS loop index (each epoch's shuffle consumes
`data.length − 1` fresh draws of the ambient generator), `best` is
`bestValidationError` (initially `Infinity`) and `patience` is
`patienceCounter`.  The epoch's error is pushed onto the history before the
early-stopping check, so a triggering epoch is still recorded. -/
noncomputable def trainLoop (data : List TrainExample) (opts : TrainOptions)
    (rnd : ℕ → ℝ) : ℕ → ℕ → JsNum → ℕ → Network → Except JsError Unit × Network
  | 0, _, _, _, net => (.ok (), net)
  | remaining + 1, epoch, best, patience, net =>
    match net.trainEpoch data (fun k => rnd (epoch * (data.length - 1) + k)) with
    | (.error e, net1) => (.error e, net1)
    | (.ok epochError, net1) =>
      let net2 := { net1 with trainingHistory := net1.trainingHistory ++ [epochError] }
      match opts.validationData, opts.esActive with
      | some vd, true =>
        match net2.evaluateValidation vd with
        | (.error e, net3) => (.error e, net3)
        | (.ok validationError, net3) =>
          if JsNum.ltFin validationError best then
            trainLoop data opts rnd remaining (epoch + 1) (.fin validationError) 0 net3
          else
            if ((patience + 1 : ℕ) : ℚ) ≥ opts.earlyStoppingPatience.getD 0 then
              (.ok (), net3)
            else
              trainLoop data opts rnd remaining (epoch + 1) best (patience + 1) net3
      | _, _ =>
        trainLoop data opts rnd remaining (epoch + 1) best patience net2

/-- `train(trainingData, epochs, options)`: validate the data, prepare
(auto-compile, history reset, compatibility checks), then run the epoch
loop; chainable. -/
noncomputable def train (net : Network) (trainingData : Option (List TrainExample))
    (epochs : ℕ) (opts : TrainOptions) (rnd : ℕ → ℝ) :
    Except JsError Unit × Network :=
  match validateTrainingData trainingData with
  | .error e => (.error e, net)
  | .ok () =>
    let data := trainingData.getD []
    match net.prepareForTraining data with
    | (.error e, net1) => (.error e, net1)
    | (.ok (), net1) => trainLoop data opts rnd epochs 0 .posInf 0 net1

/-- `setLearningRate(rate)`: throws unless `typeof rate === 'number'` and
`rate <= 0` is false (so the JS comparison lets `Infinity` and `NaN`
through); chainable. -/
noncomputable def setLearningRate (net : Network) (rate : JsVal) :
    Except JsError Unit × Network :=
  match rate with
  | .nonNum => (.error (.jsErr "Learning rate must be a positive number"), net)
  | .num v =>
    if v.leZero then (.error (.jsErr "Learning rate must be a positive number"), net)
    else (.ok (), { net with learningRate := v })

/-- `reset()`: reset every layer and clear the training history. -/
def reset (net : Network) : Network :=
  { net with layers := net.layers.map Layer.reset, trainingHistory := ([] : List ℝ) }

end Network

/-! Claim C7: `Neuron.updateWeights`. -/

/-- Index-wise reading of a zipped map over two lists of equal length. -/
theorem zip_map_getD (f : ℝ → ℝ → ℝ) (w : List ℝ) :
    ∀ (li : List ℝ) (i : ℕ), i < w.length → li.length = w.length →
      ((w.zip li).map fun p => f p.1 p.2).getD i 0 = f (w.getD i 0) (li.getD i 0) := by
  induction w with
  | nil => intro li i hi _; simp at hi
  | cons a w ih =>
    intro li i hi hlen
    cases li with
    | nil => simp at hlen
    | cons b li =>
      cases i with
      | zero => simp
      | succ i =>
        simp only [List.zip_cons_cons, List.map_cons, List.getD_cons_succ]
        exact ih li i (by simpa using hi) (by simpa using hlen)

/-- C7: `updateWeights(delta, learningRate)` fails with the StateError
`'Cannot update weights: no last inputs data available'` when `lastInputs`
is null (no prior forward call), leaving the neuron unchanged; otherwise it
succeeds, setting `weights[i]` to
`weights[i] + learningRate·delta·lastInputs[i]` for every index `i` and
`bias` to `bias + learningRate·delta`. -/
theorem Neuron_updateWeights_correct :
    ∀ (n : Neuron) (delta lr : ℝ),
      (n.lastInputs = none →
        n.updateWeights delta lr =
          (.error (.jsErr "Cannot update weights: no last inputs data available"), n)) ∧
      (∀ li, n.lastInputs = some li → li.length = n.weights.length →
        (n.updateWeights delta lr).1 = .ok () ∧
        (n.updateWeights delta lr).2.bias = n.bias + lr * delta ∧
        (n.updateWeights delta lr).2.weights.length = n.weights.length ∧
        (n.updateWeights delta lr).2.lastInputs = n.lastInputs ∧
        ∀ i, i < n.weights.length →
          (n.updateWeights delta lr).2.weights.getD i 0 =
            n.weights.getD i 0 + lr * delta * li.getD i 0) := by
  intro n delta lr
  constructor
  · intro h
    simp [Neuron.updateWeights, h]
  · intro li h hlen
    have hupd : n.updateWeights delta lr =
        (.ok (), { n with
          weights := (n.weights.zip li).map fun p => p.1 + lr * delta * p.2,
          bias := n.bias + lr * delta }) := by
      simp [Neuron.updateWeights, h]
    refine ⟨by rw [hupd], by rw [hupd], ?_, by rw [hupd], ?_⟩
    · rw [hupd]
      simp [hlen]
    · intro i hi
      rw [hupd]
      exact zip_map_getD (fun a b => a + lr * delta * b) n.weights li i hi hlen

/-- Witness for C7 at the claim's concrete numbers: `weights = [0.5, −0.3]`,
`bias = 0.1`, `lastInputs = [1.0, 0.5]`, `delta = 0.2`,
`learningRate = 0.1` yields `weights = [0.52, −0.29]`, `bias = 0.12`. -/
theorem Neuron_updateWeights_correct_witness :
    ((Neuron.mk [0.5, -0.3] 0.1 (some [1.0, 0.5]) none).updateWeights 0.2 0.1).1
      = .ok () ∧
    ((Neuron.mk [0.5, -0.3] 0.1 (some [1.0, 0.5]) none).updateWeights 0.2 0.1).2.bias
      = 0.12 ∧
    ((Neuron.mk [0.5, -0.3] 0.1 (some [1.0, 0.5]) none).updateWeights
        0.2 0.1).2.weights.getD 0 0 = 0.52 ∧
    ((Neuron.mk [0.5, -0.3] 0.1 (some [1.0, 0.5]) none).updateWeights
        0.2 0.1).2.weights.getD 1 0 = -0.29 := by
  have T := (Neuron_updateWeights_correct
    (Neuron.mk [0.5, -0.3] 0.1 (some [1.0, 0.5]) none) 0.2 0.1).2 [1.0, 0.5] rfl rfl
  refine ⟨T.1, ?_, ?_, ?_⟩
  · rw [T.2.1]
    norm_num
  · rw [T.2.2.2.2 0 (by norm_num)]
    norm_num [List.getD_cons_zero]
  · rw [T.2.2.2.2 1 (by norm_num)]
    norm_num [List.getD_cons_succ, List.getD_cons_zero]

/-! Claim C3: `Network.setLearningRate`. -/

/-- C3 counterexample: `setLearningRate(Infinity)` does not throw — the
guard `typeof rate !== 'number' || rate <= 0` evaluates `Infinity <= 0` to
false — and the learning rate becomes `Infinity`, although the claim
demands a ValidationError and an unchanged rate for every non-finite
argument. -/
theorem setLearningRate_accepts_infinity :
    (Network.new.setLearningRate (.num .posInf)).1 = .ok () ∧
    (Network.new.setLearningRate (.num .posInf)).2.learningRate = .posInf := by
  constructor <;> simp [Network.setLearningRate, JsNum.leZero]

/-- C3 (amended): `setLearningRate(rate)` throws
`'Learning rate must be a positive number'` and leaves `learningRate`
unchanged exactly when `rate` is not a number or the JS comparison
`rate <= 0` holds; every other numeric argument — every finite `rate > 0`,
but also `Infinity` and `NaN` (whose comparisons with `0` are false) — is
accepted and stored, the network itself being returned for chaining. -/
theorem setLearningRate_correct :
    ∀ (net : Network) (rate : JsVal),
      ((rate = .nonNum ∨ ∃ v, rate = .num v ∧ v.leZero = true) →
        net.setLearningRate rate =
          (.error (.jsErr "Learning rate must be a positive number"), net)) ∧
      (∀ v, rate = .num v → v.leZero = false →
        net.setLearningRate rate = (.ok (), { net with learningRate := v })) ∧
      (∀ x : ℝ, 0 < x →
        net.setLearningRate (.num (.fin x)) =
          (.ok (), { net with learningRate := .fin x })) := by
  intro net rate
  refine ⟨?_, ?_, ?_⟩
  · rintro (rfl | ⟨v, rfl, hv⟩)
    · rfl
    · simp [Network.setLearningRate, hv]
  · rintro v rfl hv
    simp [Network.setLearningRate, hv]
  · intro x hx
    have hz : (JsNum.fin x).leZero = false := by
      simp [JsNum.leZero, not_le.mpr hx]
    simp [Network.setLearningRate, hz]

/-- Witness for C3: a finite positive rate `0.05` is stored. -/
theorem setLearningRate_correct_witness :
    (0 : ℝ) < 0.05 ∧
    Network.new.setLearningRate (.num (.fin 0.05)) =
      (.ok (), { Network.new with learningRate := .fin 0.05 }) :=
  ⟨by norm_num,
    (setLearningRate_correct Network.new (.num (.fin 0.05))).2.2 0.05 (by norm_num)⟩

/-! Claim C2: validate-then-mutate discipline. -/

/-- Whatever `prepareForTraining` decides, once the layer stack is
non-empty its returned state is the receiver with `isCompiled` set and the
training history cleared: the auto-compile and the history reset happen
before the compatibility checks. -/
theorem prepareForTraining_state (net : Network) (d : List TrainExample)
    (hl : net.layers ≠ []) :
    (net.prepareForTraining d).2 =
      { net with isCompiled := true, trainingHistory := [] } := by
  have h1 : (if ¬net.isCompiled then net.compile else (.ok (), net)) =
      (.ok (), { net with isCompiled := true }) := by
    cases hic : net.isCompiled
    · have hlen : net.layers.length ≠ 0 := by
        simpa [List.length_eq_zero] using hl
      simp [Network.compile, hic, hlen]
    · obtain ⟨ls, lr, th, ic⟩ := net
      simp at hic
      simp [hic]
  unfold Network.prepareForTraining
  rw [h1]
  cases h2 : ({ net with isCompiled := true } : Network).layers with
  | nil =>
    exact absurd (by simpa using h2) hl
  | cons l0 rest =>
    simp only [h2]
    split <;> try rfl
    split <;> try rfl
    split <;> rfl

/-- C2 counterexample network: one layer of one linear neuron (weight `0`,
bias `0`, reachable by `addLayer(1, linear, 1)` when every random draw is
`0.5`), not yet compiled, with one recorded epoch error. -/
noncomputable def demoLayer : Layer where
  neurons := [{ weights := [0], bias := 0, lastInputs := none, lastOutput := none }]
  activationFunction := activations.linear
  outputs := []
  size := 1
  inputSize := 1

/-- See `demoLayer`. -/
noncomputable def demoNet : Network where
  layers := [demoLayer]
  learningRate := .fin 0.1
  trainingHistory := [5]
  isCompiled := false

/-- C2 counterexample: a `train` call whose data passes format validation
but fails the architecture-compatibility check (input length 2 against
network input size 1) throws — yet it has already set `isCompiled` and
cleared `trainingHistory`, so the failed call leaves partial state. -/
theorem train_mutates_before_architecture_check :
    (demoNet.train (some [⟨some [1, 2], some [1]⟩]) 10 ⟨none, none⟩
        (fun _ => 0)).1 ≠ .ok () ∧
    (demoNet.train (some [⟨some [1, 2], some [1]⟩]) 10 ⟨none, none⟩
        (fun _ => 0)).2.isCompiled = true ∧
    demoNet.isCompiled = false ∧
    (demoNet.train (some [⟨some [1, 2], some [1]⟩]) 10 ⟨none, none⟩
        (fun _ => 0)).2.trainingHistory = [] ∧
    demoNet.trainingHistory = [5] := by
  refine ⟨?_, ?_, rfl, ?_, rfl⟩ <;>
    simp [Network.train, Network.validateTrainingData, Network.validateSizesGo,
      Network.prepareForTraining, Network.compile, demoNet, demoLayer]

/-- C2 (amended): the upfront validations of the public operations run
before any mutation — a call of `addLayer`, `compile`, `predict`,
`setLearningRate`, `Neuron.forward`, `Neuron.updateWeights`,
`Neuron.setWeights`, `Layer.forward`, `Layer.backwardOutput` or
`Layer.backwardHidden` that fails its argument validation leaves the
receiver exactly as it was, and so does a `train` call that fails the
training-data format validation.  `train` is however not fully
validate-then-mutate: when the data format is accepted but the
architecture/data compatibility check fails, the call throws *after*
auto-compiling and clearing the history, leaving `isCompiled = true` and
`trainingHistory = []`. -/
theorem validate_before_mutate_amended :
    (∀ (net : Network) (nc : ℚ) (act : Option ActArg) (isz : Option ℚ)
        (rnd : ℕ → ℝ) (e : JsError),
      (net.addLayer nc act isz rnd).1 = .error e →
        (net.addLayer nc act isz rnd).2 = net) ∧
    (∀ (net : Network) (e : JsError),
      net.compile.1 = .error e → net.compile.2 = net) ∧
    (∀ (net : Network) (inputs : Option (List ℝ)) (e : JsError),
      net.validatePredictionInputs inputs = .error e →
        net.predict inputs = (.error e, net)) ∧
    (∀ (net : Network) (rate : JsVal) (e : JsError),
      (net.setLearningRate rate).1 = .error e →
        (net.setLearningRate rate).2 = net) ∧
    (∀ (n : Neuron) (inputs : Option (List ℝ)) (f : ℝ → ℝ) (e : JsError),
      (n.forward inputs f).1 = .error e → (n.forward inputs f).2 = n) ∧
    (∀ (n : Neuron) (delta lr : ℝ) (e : JsError),
      (n.updateWeights delta lr).1 = .error e → (n.updateWeights delta lr).2 = n) ∧
    (∀ (n : Neuron) (w : Option (List ℝ)) (b : ℝ) (e : JsError),
      (n.setWeights w b).1 = .error e → (n.setWeights w b).2 = n) ∧
    (∀ (l : Layer) (inputs : List ℝ) (e : JsError),
      l.validateInputs inputs = .error e → l.forward inputs = (.error e, l)) ∧
    (∀ (l : Layer) (targets : Option (List ℝ)) (lr : ℝ) (e : JsError),
      l.validateTargets targets = .error e →
        l.backwardOutput targets lr = (.error e, l)) ∧
    (∀ (l : Layer) (ds : List ℝ) (ws : List (List ℝ)) (lr : ℝ) (e : JsError),
      Layer.validateBackpropagationInputs ds ws = .error e →
        l.backwardHidden ds ws lr = (.error e, l)) ∧
    (∀ (net : Network) (data : Option (List TrainExample)) (epochs : ℕ)
        (opts : TrainOptions) (rnd : ℕ → ℝ) (e : JsError),
      Network.validateTrainingData data = .error e →
        net.train data epochs opts rnd = (.error e, net)) ∧
    (∀ (net : Network) (d : List TrainExample) (epochs : ℕ)
        (opts : TrainOptions) (rnd : ℕ → ℝ) (e : JsError),
      Network.validateTrainingData (some d) = .ok () →
      net.layers ≠ [] →
      (net.prepareForTraining d).1 = .error e →
        net.train (some d) epochs opts rnd =
          (.error e, { net with isCompiled := true, trainingHistory := [] })) := by
  refine ⟨?_, ?_, ?_, ?_, ?_, ?_, ?_, ?_, ?_, ?_, ?_, ?_⟩
  · intro net nc act isz rnd e h
    cases hv : net.validateLayerParameters nc act isz with
    | error e2 => simp [Network.addLayer, hv]
    | ok u =>
      cases u
      cases hc : Layer.construct nc (net.determineLayerInputSize isz) act rnd with
      | error e2 => simp [Network.addLayer, hv, hc]
      | ok layer => simp [Network.addLayer, hv, hc] at h
  · intro net e h
    by_cases hl : net.layers.length = 0
    · simp [Network.compile, hl]
    · simp [Network.compile, hl] at h
  · intro net inputs e h
    simp [Network.predict, h]
  · intro net rate e h
    cases rate with
    | nonNum => rfl
    | num v =>
      cases hz : v.leZero
      · simp [Network.setLearningRate, hz] at h
      · simp [Network.setLearningRate, hz]
  · intro n inputs f e h
    cases hv : n.validateInputs inputs with
    | error e2 => simp [Neuron.forward, hv]
    | ok u =>
      cases u
      simp [Neuron.forward, hv] at h
  · intro n delta lr e h
    cases hli : n.lastInputs with
    | none => simp [Neuron.updateWeights, hli]
    | some li => simp [Neuron.updateWeights, hli] at h
  · intro n w b e h
    cases w with
    | none => rfl
    | some w0 =>
      by_cases hlen : w0.length = n.weights.length
      · simp [Neuron.setWeights, hlen] at h
      · simp [Neuron.setWeights, hlen]
  · intro l inputs e h
    simp [Layer.forward, h]
  · intro l targets lr e h
    simp [Layer.backwardOutput, h]
  · intro l ds ws lr e h
    simp [Layer.backwardHidden, h]
  · intro net data epochs opts rnd e h
    simp [Network.train, h]
  · intro net d epochs opts rnd e hval hl hperr
    have hst := prepareForTraining_state net d hl
    have hpair : net.prepareForTraining d =
        (.error e, { net with isCompiled := true, trainingHistory := [] }) := by
      rw [Prod.ext_iff]
      exact ⟨hperr, hst⟩
    simp [Network.train, hval, hpair]

/-- Witness for C2: a `train` call on missing data fails the format
validation and returns the receiver untouched. -/
theorem validate_before_mutate_amended_witness :
    Network.validateTrainingData none =
      .error (.jsErr "Training data must be a non-empty array") ∧
    demoNet.train none 5 ⟨none, none⟩ (fun _ => 0) =
      (.error (.jsErr "Training data must be a non-empty array"), demoNet) :=
  ⟨rfl, validate_before_mutate_amended.2.2.2.2.2.2.2.2.2.2.1 demoNet none 5
    ⟨none, none⟩ (fun _ => 0) _ rfl⟩

/-! Claim C4: validation of training data. -/

/-- Inversion of an accepting step of the size-consistency loop. -/
theorem validateSizesGo_cons_ok (n m : ℕ) (a : TrainExample)
    (d1 : List TrainExample) :
    Network.validateSizesGo n m (a :: d1) = .ok () →
    ∃ i t, a.input = some i ∧ i.length = n ∧ a.target = some t ∧ t.length = m ∧
      Network.validateSizesGo n m d1 = .ok () := by
  intro h
  simp only [Network.validateSizesGo] at h
  cases ha : a.input with
  | none => rw [ha] at h; simp at h
  | some i =>
    rw [ha] at h
    dsimp only at h
    by_cases hi : i.length = n
    · rw [if_neg (not_not_intro hi)] at h
      cases hat : a.target with
      | none => rw [hat] at h; simp at h
      | some t =>
        rw [hat] at h
        dsimp only at h
        by_cases ht : t.length = m
        · rw [if_neg (not_not_intro ht)] at h
          exact ⟨i, t, rfl, hi, rfl, ht, h⟩
        · rw [if_pos ht] at h; simp at h
    · rw [if_pos hi] at h; simp at h

/-- A size-consistency loop that accepted a prefix hits a missing `input`
on a later example as a TypeError (JS reads `.length` of `undefined`). -/
theorem validateSizesGo_missing_input_typeerror (n m : ℕ) :
    ∀ (d1 : List TrainExample) (ex : TrainExample) (d2 : List TrainExample),
      Network.validateSizesGo n m d1 = .ok () → ex.input = none →
      Network.validateSizesGo n m (d1 ++ ex :: d2) = .error .jsTypeError := by
  intro d1
  induction d1 with
  | nil =>
    intro ex d2 _ hex
    simp [Network.validateSizesGo, hex]
  | cons a d1 ih =>
    intro ex d2 h hex
    obtain ⟨i, t, ha, hi, hat, ht, hrest⟩ := validateSizesGo_cons_ok n m a d1 h
    simp [List.cons_append, Network.validateSizesGo, ha, hat, hi, ht]
    exact ih ex d2 hrest hex

/-- Same for a missing `target` on a later example whose `input` passed. -/
theorem validateSizesGo_missing_target_typeerror (n m : ℕ) :
    ∀ (d1 : List TrainExample) (ex : TrainExample) (d2 : List TrainExample)
      (i : List ℝ),
      Network.validateSizesGo n m d1 = .ok () →
      ex.input = some i → i.length = n → ex.target = none →
      Network.validateSizesGo n m (d1 ++ ex :: d2) = .error .jsTypeError := by
  intro d1
  induction d1 with
  | nil =>
    intro ex d2 i _ hexi hlen hext
    simp [Network.validateSizesGo, hexi, hlen, hext]
  | cons a d1 ih =>
    intro ex d2 i h hexi hlen hext
    obtain ⟨ia, t, ha, hi, hat, ht, hrest⟩ := validateSizesGo_cons_ok n m a d1 h
    simp [List.cons_append, Network.validateSizesGo, ha, hat, hi, ht]
    exact ih ex d2 i hrest hexi hlen hext

/-- A size-consistency loop that accepts gives every visited example both
fields, with the keyed lengths. -/
theorem validateSizesGo_ok_shape (n m : ℕ) :
    ∀ d : List TrainExample, Network.validateSizesGo n m d = .ok () →
      ∀ ex ∈ d, ∃ i t, ex.input = some i ∧ i.length = n ∧
        ex.target = some t ∧ t.length = m := by
  intro d
  induction d with
  | nil => intro _ ex hex; simp at hex
  | cons a d1 ih =>
    intro h ex hex
    obtain ⟨ia, t, ha, hi, hat, ht, hrest⟩ := validateSizesGo_cons_ok n m a d1 h
    rcases List.mem_cons.mp hex with rfl | hex2
    · exact ⟨ia, t, ha, hi, hat, ht⟩
    · exact ih hrest ex hex2

/-- Accepted training data has both fields on every example and uniform
input/target lengths (keyed to the first example). -/
theorem validateTrainingData_ok_shape (d : List TrainExample) :
    Network.validateTrainingData (some d) = .ok () →
    ∃ n m, ∀ ex ∈ d, ∃ i t, ex.input = some i ∧ i.length = n ∧
      ex.target = some t ∧ t.length = m := by
  cases d with
  | nil => intro h; exact absurd h (by simp [Network.validateTrainingData])
  | cons first rest =>
    intro h
    simp only [Network.validateTrainingData] at h
    cases hfi : first.input with
    | none => rw [hfi] at h; simp at h
    | some fi =>
      rw [hfi] at h
      cases hft : first.target with
      | none => rw [hft] at h; simp at h
      | some ft =>
        rw [hft] at h
        dsimp only at h
        exact ⟨fi.length, ft.length, validateSizesGo_ok_shape _ _ _ h⟩

/-- C4 counterexample: when the second example lacks its `input`, `train`
throws the implicit TypeError (from reading `.length` of `undefined`), not
the claimed ValidationError — the missing-field check with its explicit
`new Error` covers the first example only.  The call does still throw
before any weight update (the receiver is returned untouched). -/
theorem train_missing_field_not_validation_error :
    (demoNet.train (some [⟨some [1], some [1]⟩, ⟨none, some [1]⟩]) 10
        ⟨none, none⟩ (fun _ => 0)).1 = .error .jsTypeError ∧
    (demoNet.train (some [⟨some [1], some [1]⟩, ⟨none, some [1]⟩]) 10
        ⟨none, none⟩ (fun _ => 0)).2 = demoNet ∧
    ∀ msg, (JsError.jsTypeError : JsError) ≠ .jsErr msg := by
  refine ⟨?_, ?_, fun msg h => JsError.noConfusion h⟩ <;>
    simp [Network.train, Network.validateTrainingData, Network.validateSizesGo]

/-- C4 (amended): `train(data, ...)` throws before any weight update (the
receiver is untouched) whenever `data` is not a non-empty sequence, an
example lacks `input` or `target`, or two inputs (or two targets) have
different lengths.  The error is the explicit validation `Error` for a
missing/empty sequence, for a missing field on the *first* example, and
for length mismatches; a missing field on a *later* example instead
surfaces as the implicit TypeError raised inside the size-consistency
loop. -/
theorem train_validation_amended :
    (∀ (net : Network) (epochs : ℕ) (opts : TrainOptions) (rnd : ℕ → ℝ),
      net.train none epochs opts rnd =
        (.error (.jsErr "Training data must be a non-empty array"), net) ∧
      net.train (some []) epochs opts rnd =
        (.error (.jsErr "Training data must be a non-empty array"), net)) ∧
    (∀ (net : Network) (first : TrainExample) (rest : List TrainExample)
        (epochs : ℕ) (opts : TrainOptions) (rnd : ℕ → ℝ),
      first.input = none ∨ first.target = none →
      net.train (some (first :: rest)) epochs opts rnd =
        (.error (.jsErr "Each example must contain input and target fields"), net)) ∧
    (∀ (net : Network) (d : List TrainExample) (epochs : ℕ) (opts : TrainOptions)
        (rnd : ℕ → ℝ),
      ((∃ ex ∈ d, ex.input = none ∨ ex.target = none) ∨
       (∃ ex1 ∈ d, ∃ ex2 ∈ d, ∃ i1 i2, ex1.input = some i1 ∧ ex2.input = some i2 ∧
          i1.length ≠ i2.length) ∨
       (∃ ex1 ∈ d, ∃ ex2 ∈ d, ∃ t1 t2, ex1.target = some t1 ∧ ex2.target = some t2 ∧
          t1.length ≠ t2.length)) →
      ∃ e, net.train (some d) epochs opts rnd = (.error e, net)) ∧
    (∀ (n m : ℕ) (d1 : List TrainExample) (ex : TrainExample)
        (d2 : List TrainExample),
      Network.validateSizesGo n m d1 = .ok () → ex.input = none →
      Network.validateSizesGo n m (d1 ++ ex :: d2) = .error .jsTypeError) ∧
    (∀ (n m : ℕ) (d1 : List TrainExample) (ex : TrainExample)
        (d2 : List TrainExample) (i : List ℝ),
      Network.validateSizesGo n m d1 = .ok () →
      ex.input = some i → i.length = n → ex.target = none →
      Network.validateSizesGo n m (d1 ++ ex :: d2) = .error .jsTypeError) := by
  refine ⟨?_, ?_, ?_, ?_, ?_⟩
  · intro net epochs opts rnd
    constructor <;> simp [Network.train, Network.validateTrainingData]
  · intro net first rest epochs opts rnd hf
    rcases hf with hf | hf
    · simp [Network.train, Network.validateTrainingData, hf]
    · cases hfi : first.input with
      | none => simp [Network.train, Network.validateTrainingData, hfi]
      | some fi => simp [Network.train, Network.validateTrainingData, hfi, hf]
  · intro net d epochs opts rnd hmal
    cases hv : Network.validateTrainingData (some d) with
    | error e => exact ⟨e, by simp [Network.train, hv]⟩
    | ok u =>
      cases u
      exfalso
      obtain ⟨n, m, hall⟩ := validateTrainingData_ok_shape d hv
      rcases hmal with ⟨ex, hmem, hf | hf⟩ |
        ⟨ex1, h1, ex2, h2, i1, i2, hi1, hi2, hne⟩ |
        ⟨ex1, h1, ex2, h2, t1, t2, ht1, ht2, hne⟩
      · obtain ⟨i, t, hi, _, _, _⟩ := hall ex hmem
        rw [hf] at hi
        exact Option.noConfusion hi
      · obtain ⟨i, t, _, _, ht, _⟩ := hall ex hmem
        rw [hf] at ht
        exact Option.noConfusion ht
      · obtain ⟨ia, _, hia, hlen1, _, _⟩ := hall ex1 h1
        obtain ⟨ib, _, hib, hlen2, _, _⟩ := hall ex2 h2
        rw [hi1] at hia
        rw [hi2] at hib
        injection hia with he1
        injection hib with he2
        exact hne (by rw [he1, he2, hlen1, hlen2])
      · obtain ⟨_, ta, _, _, hta, hlen1⟩ := hall ex1 h1
        obtain ⟨_, tb, _, _, htb, hlen2⟩ := hall ex2 h2
        rw [ht1] at hta
        rw [ht2] at htb
        injection hta with he1
        injection htb with he2
        exact hne (by rw [he1, he2, hlen1, hlen2])
  · exact validateSizesGo_missing_input_typeerror
  · exact validateSizesGo_missing_target_typeerror

/-- Witness for C4: a first example with a missing `input` is rejected with
the explicit validation error, receiver untouched. -/
theorem train_validation_amended_witness :
    (TrainExample.mk none (some [1])).input = none ∧
    demoNet.train (some [⟨none, some [1]⟩]) 3 ⟨none, none⟩ (fun _ => 0) =
      (.error (.jsErr "Each example must contain input and target fields"), demoNet) :=
  ⟨rfl, train_validation_amended.2.1 demoNet ⟨none, some [1]⟩ [] 3 ⟨none, none⟩
    (fun _ => 0) (Or.inl rfl)⟩

/-! Claim C9: Neuron construction. -/

/-- C9: for every `inputSize n > 0` and every sequence of ambient draws in
`[0,1)`, a newly constructed Neuron has `weights.length = n`, every weight
within the Xavier/Glorot bound `√(6/(n+1))` in absolute value,
`|bias| ≤ 0.1`, and both caches null. -/
theorem Neuron_construct_bounds :
    ∀ (n : ℕ) (rnd : ℕ → ℝ), 0 < n → (∀ i, 0 ≤ rnd i ∧ rnd i < 1) →
      (Neuron.construct n rnd).weights.length = n ∧
      (∀ w ∈ (Neuron.construct n rnd).weights,
        |w| ≤ Real.sqrt (6 / (n + 1))) ∧
      |(Neuron.construct n rnd).bias| ≤ 0.1 ∧
      (Neuron.construct n rnd).lastInputs = none ∧
      (Neuron.construct n rnd).lastOutput = none := by
  intro n rnd _ hr
  refine ⟨?_, ?_, ?_, rfl, rfl⟩
  · simp [Neuron.construct, Neuron.initializeWeights]
  · intro w hw
    simp only [Neuron.construct, Neuron.initializeWeights, List.mem_map,
      List.mem_range] at hw
    obtain ⟨i, _, rfl⟩ := hw
    rw [abs_mul, abs_of_nonneg (Real.sqrt_nonneg _)]
    have h1 : |rnd i * 2 - 1| ≤ 1 := by
      rcases hr i with ⟨h0, hlt⟩
      rw [abs_le]
      constructor <;> linarith
    calc |rnd i * 2 - 1| * Real.sqrt (6 / (n + 1))
        ≤ 1 * Real.sqrt (6 / (n + 1)) :=
          mul_le_mul_of_nonneg_right h1 (Real.sqrt_nonneg _)
      _ = Real.sqrt (6 / (n + 1)) := one_mul _
  · show |(rnd n * 2 - 1) * 0.1| ≤ 0.1
    rw [abs_mul]
    have h1 : |rnd n * 2 - 1| ≤ 1 := by
      rcases hr n with ⟨h0, hlt⟩
      rw [abs_le]
      constructor <;> linarith
    have h2 : |(0.1 : ℝ)| = 0.1 := by norm_num
    rw [h2]
    calc |rnd n * 2 - 1| * (0.1 : ℝ) ≤ 1 * 0.1 :=
          mul_le_mul_of_nonneg_right h1 (by norm_num)
      _ = 0.1 := one_mul _

/-- Witness for C9 at `n = 2` with the constant draw `1/2` (which yields
the all-zero weights). -/
theorem Neuron_construct_bounds_witness :
    0 < 2 ∧ (∀ i : ℕ, 0 ≤ ((1 : ℝ) / 2) ∧ ((1 : ℝ) / 2) < 1) ∧
    (Neuron.construct 2 (fun _ => 1 / 2)).weights.length = 2 ∧
    (Neuron.construct 2 (fun _ => 1 / 2)).lastInputs = none :=
  ⟨by norm_num, fun _ => ⟨by norm_num, by norm_num⟩,
    (Neuron_construct_bounds 2 (fun _ => 1 / 2) (by norm_num)
      (fun _ => ⟨by norm_num, by norm_num⟩)).1,
    (Neuron_construct_bounds 2 (fun _ => 1 / 2) (by norm_num)
      (fun _ => ⟨by norm_num, by norm_num⟩)).2.2.2.1⟩

/-! Claim C8: the layer-size chain invariant. -/

/-- The `(size, inputSize)` skeleton of a layer. -/
def Layer.sk (l : Layer) : ℕ × ℕ :=
  (l.size, l.inputSize)

/-- The skeleton of a layer stack. -/
def layerSkeleton (ls : List Layer) : List (ℕ × ℕ) :=
  ls.map Layer.sk

/-- The adjacency invariant: each layer's `inputSize` equals the previous
layer's `size`. -/
def chained (sk : List (ℕ × ℕ)) : Prop :=
  ∀ i, i + 1 < sk.length → (sk.getD (i + 1) (0, 0)).2 = (sk.getD i (0, 0)).1

/-- Appending a pair whose second component matches the last first
component preserves the chain. -/
theorem chained_append (sk : List (ℕ × ℕ)) (p s₀ : ℕ × ℕ)
    (hc : chained sk) (hlast : sk.getLast? = some s₀) (hp : p.2 = s₀.1) :
    chained (sk ++ [p]) := by
  intro i hi
  rw [List.length_append, List.length_singleton] at hi
  by_cases h : i + 1 < sk.length
  · rw [List.getD_append _ _ _ _ h, List.getD_append _ _ _ _ (by omega)]
    exact hc i h
  · have hieq : i + 1 = sk.length := by omega
    have h1 : (sk ++ [p]).getD (i + 1) (0, 0) = p := by
      rw [List.getD_append_right _ _ _ _ (le_of_eq hieq.symm), hieq, Nat.sub_self]
      rfl
    have h2 : (sk ++ [p]).getD i (0, 0) = sk.getD i (0, 0) :=
      List.getD_append _ _ _ _ (by omega)
    have h3 : sk.getD i (0, 0) = s₀ := by
      rw [List.getLast?_eq_getElem?] at hlast
      have hidx : i = sk.length - 1 := by omega
      rw [hidx, List.getD_eq_getD_get?, List.get?_eq_getElem?, hlast]
      rfl
    rw [h1, h2, h3, hp]

/-- `Layer.forward` never changes the skeleton of its receiver. -/
theorem Layer_forward_sk (l : Layer) (inputs : List ℝ) :
    (l.forward inputs).2.sk = l.sk := by
  unfold Layer.forward
  cases hv : l.validateInputs inputs with
  | error e => rfl
  | ok u =>
    cases u
    cases hf : Layer.forwardNeurons inputs l.activationFunction.func l.neurons with
    | mk fst ns => cases fst <;> rfl

/-- `Layer.backwardOutput` never changes the skeleton. -/
theorem Layer_backwardOutput_sk (l : Layer) (targets : Option (List ℝ)) (lr : ℝ) :
    (l.backwardOutput targets lr).2.sk = l.sk := by
  unfold Layer.backwardOutput
  cases hv : l.validateTargets targets with
  | error e => rfl
  | ok u =>
    cases u
    cases hb : Layer.backOutGo l.activationFunction (targets.getD [])
        l.outputs lr l.neurons 0 with
    | mk fst ns => cases fst <;> rfl

/-- `Layer.backwardHidden` never changes the skeleton. -/
theorem Layer_backwardHidden_sk (l : Layer) (ds : List ℝ) (ws : List (List ℝ))
    (lr : ℝ) : (l.backwardHidden ds ws lr).2.sk = l.sk := by
  unfold Layer.backwardHidden
  cases hv : Layer.validateBackpropagationInputs ds ws with
  | error e => rfl
  | ok u =>
    cases u
    cases hb : Layer.backHidGo l.activationFunction ds ws l.outputs lr l.neurons 0 with
    | mk fst ns => cases fst <;> rfl

/-- The prediction fold preserves the stack skeleton. -/
theorem predictGo_sk (ls : List Layer) :
    ∀ inputs : List ℝ,
      layerSkeleton (Network.predictGo inputs ls).2 = layerSkeleton ls := by
  induction ls with
  | nil => intro inputs; rfl
  | cons l rest ih =>
    intro inputs
    have hsk := Layer_forward_sk l inputs
    show layerSkeleton (Network.predictGo inputs (l :: rest)).2 = _
    simp only [Network.predictGo]
    cases hf : l.forward inputs with
    | mk fst l' =>
      rw [hf] at hsk
      have hsk' : l'.sk = l.sk := hsk
      cases fst with
      | error e =>
        show layerSkeleton (l' :: rest) = layerSkeleton (l :: rest)
        simp only [layerSkeleton, List.map_cons]
        rw [hsk']
      | ok outs =>
        dsimp only
        cases hg : Network.predictGo outs rest with
        | mk res rest' =>
          have ih2' : layerSkeleton rest' = layerSkeleton rest := by
            have h0 := ih outs
            rw [hg] at h0
            exact h0
          cases res <;>
            · show layerSkeleton (l' :: rest') = layerSkeleton (l :: rest)
              simp only [layerSkeleton, List.map_cons]
              rw [hsk']
              exact congrArg _ ih2'

/-- The hidden-layer backward pass preserves (and returns in order) the
skeletons of the processed layers. -/
theorem backHiddenGo_sk (lr : ℝ) :
    ∀ (rest : List Layer) (lNext : Layer) (deltas : List ℝ),
      layerSkeleton (Network.backHiddenGo lr lNext deltas rest).2 =
        lNext.sk :: layerSkeleton rest := by
  intro rest
  induction rest with
  | nil => intro lNext deltas; rfl
  | cons lcur rest ih =>
    intro lNext deltas
    show layerSkeleton (Network.backHiddenGo lr lNext deltas (lcur :: rest)).2 = _
    simp only [Network.backHiddenGo]
    have hsk := Layer_backwardHidden_sk lcur deltas lNext.getConnectionWeights lr
    cases hb : lcur.backwardHidden deltas lNext.getConnectionWeights lr with
    | mk fst l' =>
      rw [hb] at hsk
      have hsk' : l'.sk = lcur.sk := hsk
      cases fst with
      | error e =>
        show layerSkeleton (lNext :: l' :: rest) = _
        simp only [layerSkeleton, List.map_cons]
        rw [hsk']
      | ok ds =>
        dsimp only
        cases hr : Network.backHiddenGo lr l' ds rest with
        | mk res ls =>
          have ih2 : layerSkeleton ls = l'.sk :: layerSkeleton rest := by
            have h0 := ih l' ds
            rw [hr] at h0
            exact h0
          show layerSkeleton (lNext :: ls) = _
          simp only [layerSkeleton, List.map_cons] at ih2 ⊢
          rw [ih2, hsk']

/-- `backpropagate` preserves the stack skeleton. -/
theorem backpropagate_sk (net : Network) (targets : Option (List ℝ)) :
    layerSkeleton (net.backpropagate targets).2.layers = layerSkeleton net.layers := by
  unfold Network.backpropagate
  split
  · rfl
  next lastLayer restRev hrev =>
    have hlay : net.layers = (lastLayer :: restRev).reverse := by
      rw [← hrev, List.reverse_reverse]
    have hsk := Layer_backwardOutput_sk lastLayer targets net.learningRate.toReal
    cases hbo : lastLayer.backwardOutput targets net.learningRate.toReal with
    | mk fst l' =>
      rw [hbo] at hsk
      have hsk' : l'.sk = lastLayer.sk := hsk
      cases fst with
      | error e =>
        show layerSkeleton ((l' :: restRev).reverse) = _
        rw [hlay]
        simp only [layerSkeleton, List.map_reverse, List.map_cons]
        rw [hsk']
      | ok deltas =>
        dsimp only
        cases hh : Network.backHiddenGo net.learningRate.toReal l' deltas restRev with
        | mk res lsRev =>
          have ih2 : layerSkeleton lsRev = l'.sk :: layerSkeleton restRev := by
            have h0 := backHiddenGo_sk net.learningRate.toReal restRev l' deltas
            rw [hh] at h0
            exact h0
          show layerSkeleton (lsRev.reverse) = _
          rw [hlay]
          simp only [layerSkeleton, List.map_reverse, List.map_cons] at ih2 ⊢
          rw [ih2, hsk']

/-- `predict` preserves the stack skeleton. -/
theorem predict_sk (net : Network) (inputs : Option (List ℝ)) :
    layerSkeleton (net.predict inputs).2.layers = layerSkeleton net.layers := by
  unfold Network.predict
  cases hv : net.validatePredictionInputs inputs with
  | error e => rfl
  | ok u =>
    cases u
    dsimp only
    cases hg : Network.predictGo (inputs.getD []) net.layers with
    | mk res ls =>
      have h0 := predictGo_sk net.layers (inputs.getD [])
      rw [hg] at h0
      cases res <;> exact h0

/-- The per-example training loop preserves the stack skeleton. -/
theorem runExamples_sk :
    ∀ (d : List TrainExample) (net : Network) (tot : ℝ),
      layerSkeleton (Network.runExamples net d tot).2.layers =
        layerSkeleton net.layers := by
  intro d
  induction d with
  | nil => intro net tot; rfl
  | cons ex rest ih =>
    intro net tot
    show layerSkeleton (Network.runExamples net (ex :: rest) tot).2.layers = _
    simp only [Network.runExamples]
    cases hp : net.predict ex.input with
    | mk res net1 =>
      have h1 : layerSkeleton net1.layers = layerSkeleton net.layers := by
        have h0 := predict_sk net ex.input
        rw [hp] at h0
        exact h0
      cases res with
      | error e => exact h1
      | ok out =>
        dsimp only
        cases hc : Network.calculateError out ex.target with
        | error e => exact h1
        | ok err =>
          dsimp only
          cases hb : net1.backpropagate ex.target with
          | mk res2 net2 =>
            have h2 : layerSkeleton net2.layers = layerSkeleton net1.layers := by
              have h0 := backpropagate_sk net1 ex.target
              rw [hb] at h0
              exact h0
            cases res2 with
            | error e => exact h2.trans h1
            | ok u2 =>
              cases u2
              dsimp only
              exact (ih net2 (tot + err)).trans (h2.trans h1)

/-- Forward-only validation passes preserve the stack skeleton. -/
theorem evalValGo_sk :
    ∀ (d : List TrainExample) (net : Network) (tot : ℝ),
      layerSkeleton (Network.evalValGo net tot d).2.layers =
        layerSkeleton net.layers := by
  intro d
  induction d with
  | nil => intro net tot; rfl
  | cons ex rest ih =>
    intro net tot
    show layerSkeleton (Network.evalValGo net tot (ex :: rest)).2.layers = _
    simp only [Network.evalValGo]
    cases hp : net.predict ex.input with
    | mk res net1 =>
      have h1 : layerSkeleton net1.layers = layerSkeleton net.layers := by
        have h0 := predict_sk net ex.input
        rw [hp] at h0
        exact h0
      cases res with
      | error e => exact h1
      | ok out =>
        dsimp only
        cases hc : Network.calculateError out ex.target with
        | error e => exact h1
        | ok err =>
          dsimp only
          exact (ih net1 (tot + err)).trans h1

/-- `evaluateValidation` preserves the stack skeleton. -/
theorem evaluateValidation_sk (net : Network) (vd : List TrainExample) :
    layerSkeleton (net.evaluateValidation vd).2.layers = layerSkeleton net.layers := by
  unfold Network.evaluateValidation
  cases he : Network.evalValGo net 0 vd with
  | mk res net' =>
    have h0 := evalValGo_sk vd net 0
    rw [he] at h0
    cases res <;> exact h0

/-- `trainEpoch` preserves the stack skeleton. -/
theorem trainEpoch_sk (net : Network) (data : List TrainExample) (rnd : ℕ → ℝ) :
    layerSkeleton (net.trainEpoch data rnd).2.layers = layerSkeleton net.layers := by
  unfold Network.trainEpoch
  dsimp only
  cases hr : Network.runExamples net (shuffleArray data rnd) 0 with
  | mk res net' =>
    have h0 := runExamples_sk (shuffleArray data rnd) net 0
    rw [hr] at h0
    cases res <;> exact h0

/-- `prepareForTraining` never touches the layer stack. -/
theorem prepareForTraining_layers (net : Network) (d : List TrainExample) :
    (net.prepareForTraining d).2.layers = net.layers := by
  have hstep : ∀ (res : Except JsError Unit) (net1 : Network),
      (if ¬net.isCompiled then net.compile else (.ok (), net)) = (res, net1) →
      net1.layers = net.layers := by
    intro res net1 h
    by_cases hic : ¬net.isCompiled
    · rw [if_pos hic] at h
      unfold Network.compile at h
      by_cases hl : net.layers.length = 0
      · rw [if_pos hl] at h
        cases h
        rfl
      · rw [if_neg hl] at h
        cases h
        rfl
    · rw [if_neg hic] at h
      cases h
      rfl
  unfold Network.prepareForTraining
  cases hs : (if ¬net.isCompiled then net.compile else (.ok (), net)) with
  | mk res net1 =>
    have h1 := hstep res net1 hs
    cases res with
    | error e => exact h1
    | ok u =>
      cases u
      dsimp only
      cases h2 : ({ net1 with trainingHistory := ([] : List ℝ) } : Network).layers with
      | nil =>
        have h2' : net1.layers = [] := h2
        show ([] : List Layer) = net.layers
        exact h2'.symm.trans h1
      | cons l0 rest2 =>
        have h2' : net1.layers = l0 :: rest2 := h2
        split
        · show l0 :: rest2 = net.layers
          exact h2'.symm.trans h1
        · split
          · show l0 :: rest2 = net.layers
            exact h2'.symm.trans h1
          · split <;>
              first
              | (show l0 :: rest2 = net.layers
                 exact h2'.symm.trans h1)
              | (split <;>
                  · show l0 :: rest2 = net.layers
                    exact h2'.symm.trans h1)

/-- The epoch loop preserves the stack skeleton. -/
theorem trainLoop_sk (data : List TrainExample) (opts : TrainOptions) (rnd : ℕ → ℝ) :
    ∀ (rem epoch : ℕ) (best : JsNum) (pat : ℕ) (net : Network),
      layerSkeleton (Network.trainLoop data opts rnd rem epoch best pat net).2.layers =
        layerSkeleton net.layers := by
  intro rem
  induction rem with
  | zero => intro epoch best pat net; rfl
  | succ rem ih =>
    intro epoch best pat net
    show layerSkeleton
        (Network.trainLoop data opts rnd (rem + 1) epoch best pat net).2.layers = _
    simp only [Network.trainLoop]
    cases hte : net.trainEpoch data (fun k => rnd (epoch * (data.length - 1) + k)) with
    | mk res net1 =>
      have h1 : layerSkeleton net1.layers = layerSkeleton net.layers := by
        have h0 := trainEpoch_sk net data (fun k => rnd (epoch * (data.length - 1) + k))
        rw [hte] at h0
        exact h0
      cases res with
      | error e => exact h1
      | ok err =>
        dsimp only
        cases hvd : opts.validationData with
        | none => exact (ih (epoch + 1) best pat _).trans h1
        | some vd =>
          cases hes : opts.esActive with
          | false => exact (ih (epoch + 1) best pat _).trans h1
          | true =>
            dsimp only
            cases hev : Network.evaluateValidation
                { net1 with trainingHistory := net1.trainingHistory ++ [err] } vd with
            | mk res2 net3 =>
              have h2 : layerSkeleton net3.layers = layerSkeleton net1.layers := by
                have h0 := evaluateValidation_sk
                  { net1 with trainingHistory := net1.trainingHistory ++ [err] } vd
                rw [hev] at h0
                exact h0
              cases res2 with
              | error e => exact h2.trans h1
              | ok ve =>
                dsimp only
                split
                · exact (ih (epoch + 1) (.fin ve) 0 net3).trans (h2.trans h1)
                · split
                  · exact h2.trans h1
                  · exact (ih (epoch + 1) best (pat + 1) net3).trans (h2.trans h1)

/-- `train` preserves the stack skeleton. -/
theorem train_sk (net : Network) (data : Option (List TrainExample)) (epochs : ℕ)
    (opts : TrainOptions) (rnd : ℕ → ℝ) :
    layerSkeleton (net.train data epochs opts rnd).2.layers =
      layerSkeleton net.layers := by
  unfold Network.train
  cases hv : Network.validateTrainingData data with
  | error e => rfl
  | ok u =>
    cases u
    dsimp only
    cases hp : net.prepareForTraining (data.getD []) with
    | mk res net1 =>
      have h1 : net1.layers = net.layers := by
        have h0 := prepareForTraining_layers net (data.getD [])
        rw [hp] at h0
        exact h0
      cases res with
      | error e => rw [h1]
      | ok u2 =>
        cases u2
        dsimp only
        exact (trainLoop_sk (data.getD []) opts rnd epochs 0 .posInf 0 net1).trans (by rw [h1])

/-- Inversion of an accepting `Layer.validateParameters`. -/
theorem Layer_validateParameters_ok (nc q : ℚ) (actArg : Option ActArg) :
    Layer.validateParameters nc q actArg = .ok () →
    (nc.den = 1 ∧ 0 < nc) ∧ (q.den = 1 ∧ 0 < q) ∧
      ∃ a f dv, actArg = some a ∧ a.func = some f ∧ a.derivative = some dv := by
  intro h
  unfold Layer.validateParameters at h
  by_cases h1 : nc.den ≠ 1 ∨ nc ≤ 0
  · rw [if_pos h1] at h; simp at h
  · rw [if_neg h1] at h
    by_cases h2 : q.den ≠ 1 ∨ q ≤ 0
    · rw [if_pos h2] at h; simp at h
    · rw [if_neg h2] at h
      push_neg at h1 h2
      cases hact : actArg with
      | none => rw [hact] at h; simp at h
      | some a =>
        rw [hact] at h
        dsimp only at h
        cases hf : a.func with
        | none => rw [hf] at h; simp at h
        | some f =>
          rw [hf] at h
          cases hd : a.derivative with
          | none => rw [hd] at h; simp at h
          | some dv => exact ⟨h1, h2, a, f, dv, rfl, hf, hd⟩

/-- A successfully constructed layer's skeleton is the validated pair of
counts. -/
theorem Layer_construct_sk (nc q : ℚ) (actArg : Option ActArg) (rnd : ℕ → ℝ)
    (layer : Layer) :
    Layer.construct nc q actArg rnd = .ok layer →
    layer.sk = (nc.num.toNat, q.num.toNat) := by
  intro h
  unfold Layer.construct at h
  cases hv : Layer.validateParameters nc q actArg with
  | error e => rw [hv] at h; simp at h
  | ok u =>
    cases u
    rw [hv] at h
    obtain ⟨_, _, a, f, dv, rfl, hf, hd⟩ := Layer_validateParameters_ok nc q actArg hv
    obtain ⟨af, ad⟩ := a
    simp only at hf hd
    subst hf
    subst hd
    dsimp only at h
    injection h with h
    rw [← h]
    rfl

/-- Inversion of a successful `addLayer`: the new stack is the old one with
the constructed layer appended, and `isCompiled` is invalidated. -/
theorem addLayer_ok_layers (net : Network) (nc : ℚ) (act : Option ActArg)
    (isz : Option ℚ) (rnd : ℕ → ℝ) :
    (net.addLayer nc act isz rnd).1 = .ok () →
    ∃ layer, Layer.construct nc (net.determineLayerInputSize isz) act rnd = .ok layer ∧
      (net.addLayer nc act isz rnd).2.layers = net.layers ++ [layer] ∧
      (net.addLayer nc act isz rnd).2.isCompiled = false := by
  intro h
  cases hv : net.validateLayerParameters nc act isz with
  | error e => rw [Network.addLayer, hv] at h; simp at h
  | ok u =>
    cases u
    cases hc : Layer.construct nc (net.determineLayerInputSize isz) act rnd with
    | error e => rw [Network.addLayer, hv] at h; dsimp only at h; rw [hc] at h; simp at h
    | ok layer =>
      refine ⟨layer, rfl, ?_, ?_⟩ <;>
        · rw [Network.addLayer, hv]
          dsimp only
          rw [hc]

/-- C8: the invariant `layers[i+1].inputSize = layers[i].size` is
established by `addLayer` — the first layer stores the caller-supplied
input size, every later layer takes the previous layer's size, ignoring
the caller's argument — and the `(size, inputSize)` skeleton is preserved
untouched by `compile`, `predict`, `setLearningRate`, `reset` and
`train`. -/
theorem network_layer_chain_invariant :
    (∀ (net : Network) (nc : ℚ) (act : Option ActArg) (q : ℚ) (rnd : ℕ → ℝ),
      net.layers = [] →
      (net.addLayer nc act (some q) rnd).1 = .ok () →
      layerSkeleton (net.addLayer nc act (some q) rnd).2.layers =
        [(nc.num.toNat, q.num.toNat)]) ∧
    (∀ (net : Network) (isz isz' : Option ℚ), net.layers ≠ [] →
      net.determineLayerInputSize isz = net.determineLayerInputSize isz') ∧
    (∀ (net : Network) (nc : ℚ) (act : Option ActArg) (isz : Option ℚ)
        (rnd : ℕ → ℝ) (lastL : Layer),
      net.layers.getLast? = some lastL →
      (net.addLayer nc act isz rnd).1 = .ok () →
      layerSkeleton (net.addLayer nc act isz rnd).2.layers =
        layerSkeleton net.layers ++ [(nc.num.toNat, lastL.size)]) ∧
    (∀ (net : Network) (nc : ℚ) (act : Option ActArg) (isz : Option ℚ)
        (rnd : ℕ → ℝ),
      chained (layerSkeleton net.layers) →
      (net.addLayer nc act isz rnd).1 = .ok () →
      chained (layerSkeleton (net.addLayer nc act isz rnd).2.layers)) ∧
    (∀ net : Network, layerSkeleton net.compile.2.layers = layerSkeleton net.layers) ∧
    (∀ (net : Network) (inputs : Option (List ℝ)),
      layerSkeleton (net.predict inputs).2.layers = layerSkeleton net.layers) ∧
    (∀ (net : Network) (rate : JsVal),
      layerSkeleton (net.setLearningRate rate).2.layers = layerSkeleton net.layers) ∧
    (∀ net : Network, layerSkeleton net.reset.layers = layerSkeleton net.layers) ∧
    (∀ (net : Network) (data : Option (List TrainExample)) (epochs : ℕ)
        (opts : TrainOptions) (rnd : ℕ → ℝ),
      layerSkeleton (net.train data epochs opts rnd).2.layers =
        layerSkeleton net.layers) := by
  have hlastsk : ∀ (ls : List Layer) (lastL : Layer), ls.getLast? = some lastL →
      (layerSkeleton ls).getLast? = some lastL.sk := by
    intro ls lastL h
    rw [layerSkeleton, List.getLast?_map, h]
    rfl
  have hdet : ∀ (net : Network) (isz : Option ℚ) (lastL : Layer),
      net.layers.getLast? = some lastL →
      net.determineLayerInputSize isz = (lastL.size : ℚ) := by
    intro net isz lastL hlast
    have hne : net.layers ≠ [] := by
      intro h0
      rw [h0] at hlast
      simp at hlast
    have hlen : net.layers.length ≠ 0 := by
      simpa [List.length_eq_zero] using hne
    rw [Network.determineLayerInputSize, if_neg hlen, hlast]
  refine ⟨?_, ?_, ?_, ?_, ?_, predict_sk, ?_, ?_, train_sk⟩
  · intro net nc act q rnd hempty hok
    obtain ⟨layer, hc, hlay, _⟩ := addLayer_ok_layers net nc act (some q) rnd hok
    have hd : net.determineLayerInputSize (some q) = q := by
      rw [Network.determineLayerInputSize, if_pos (by rw [hempty]; rfl)]
      rfl
    rw [hd] at hc
    have hsk := Layer_construct_sk nc q act rnd layer hc
    rw [hlay, hempty]
    simp [layerSkeleton, hsk]
  · intro net isz isz' hne
    have hlen : net.layers.length ≠ 0 := by
      simpa [List.length_eq_zero] using hne
    rw [Network.determineLayerInputSize, if_neg hlen,
      Network.determineLayerInputSize, if_neg hlen]
  · intro net nc act isz rnd lastL hlast hok
    obtain ⟨layer, hc, hlay, _⟩ := addLayer_ok_layers net nc act isz rnd hok
    rw [hdet net isz lastL hlast] at hc
    have hsk := Layer_construct_sk nc _ act rnd layer hc
    have hsz : ((lastL.size : ℚ)).num.toNat = lastL.size := by
      simp [Rat.num_natCast]
    rw [hsz] at hsk
    rw [hlay]
    simp [layerSkeleton, List.map_append, hsk]
  · intro net nc act isz rnd hch hok
    obtain ⟨layer, hc, hlay, _⟩ := addLayer_ok_layers net nc act isz rnd hok
    cases hnet : net.layers.getLast? with
    | none =>
      have hempty : net.layers = [] := by
        cases hl : net.layers with
        | nil => rfl
        | cons a rest =>
          rw [hl] at hnet
          simp [List.getLast?_eq_getLast_of_ne_nil] at hnet
      rw [hlay, hempty]
      intro i hi
      simp [layerSkeleton] at hi
    | some lastL =>
      rw [hdet net isz lastL hnet] at hc
      have hsk := Layer_construct_sk nc _ act rnd layer hc
      have hsz : ((lastL.size : ℚ)).num.toNat = lastL.size := by
        simp [Rat.num_natCast]
      rw [hsz] at hsk
      rw [hlay]
      have hmap : layerSkeleton (net.layers ++ [layer]) =
          layerSkeleton net.layers ++ [layer.sk] := by
        simp [layerSkeleton, List.map_append]
      rw [hmap]
      exact chained_append _ layer.sk lastL.sk hch (hlastsk _ _ hnet) (by rw [hsk]; rfl)
  · intro net
    by_cases h : net.layers.length = 0 <;> simp [Network.compile, h]
  · intro net rate
    cases rate with
    | nonNum => rfl
    | num v => cases hz : v.leZero <;> simp [Network.setLearningRate, hz]
  · intro net
    simp only [Network.reset, layerSkeleton, List.map_map]
    rfl

/-- Witness for C8: on an empty network, `addLayer(2, linear, 3)` succeeds
and stores the caller-supplied input size `3` for the first layer. -/
theorem network_layer_chain_invariant_witness :
    Network.new.layers = [] ∧
    (Network.new.addLayer 2 activations.linear.arg (some 3) (fun _ => 1 / 2)).1
      = .ok () ∧
    layerSkeleton (Network.new.addLayer 2 activations.linear.arg (some 3)
        (fun _ => 1 / 2)).2.layers = [((2 : ℚ).num.toNat, (3 : ℚ).num.toNat)] := by
  have hok : (Network.new.addLayer 2 activations.linear.arg (some 3)
      (fun _ => 1 / 2)).1 = .ok () := by
    norm_num [Network.addLayer, Network.validateLayerParameters,
      Network.determineLayerInputSize, Layer.construct, Layer.validateParameters,
      ActivationFunction.arg, Network.new]
  exact ⟨rfl, hok,
    network_layer_chain_invariant.1 Network.new 2 activations.linear.arg 3
      (fun _ => 1 / 2) rfl hok⟩

/-! Claim C6: per-epoch behaviour of `trainEpoch`. -/

/-- Moving an element to the front after writing `x` at its slot is a
permutation. -/
theorem get_cons_set_perm {α : Type} :
    ∀ (xs : List α) (k : ℕ) (hk : k < xs.length) (x : α),
      (xs.get ⟨k, hk⟩ :: xs.set k x).Perm (x :: xs) := by
  intro xs
  induction xs with
  | nil => intro k hk x; simp at hk
  | cons y t ih =>
    intro k hk x
    cases k with
    | zero => exact List.Perm.swap x y t
    | succ k =>
      have hk' : k < t.length := by simpa using hk
      show (t.get ⟨k, hk'⟩ :: y :: t.set k x).Perm (x :: y :: t)
      exact (List.Perm.swap y (t.get ⟨k, hk'⟩) (t.set k x)).trans
        (((ih k hk' x).cons y).trans (List.Perm.swap x y t))

/-- Swapping two in-bounds slots is a permutation. -/
theorem set_set_perm {α : Type} :
    ∀ (l : List α) (i j : ℕ) (hi : i < l.length) (hj : j < l.length),
      ((l.set i (l.get ⟨j, hj⟩)).set j (l.get ⟨i, hi⟩)).Perm l := by
  intro l
  induction l with
  | nil => intro i j hi _; simp at hi
  | cons x xs ih =>
    intro i j hi hj
    cases i with
    | zero =>
      cases j with
      | zero => simp
      | succ j' =>
        have hj' : j' < xs.length := by simpa using hj
        show (xs.get ⟨j', hj'⟩ :: xs.set j' x).Perm (x :: xs)
        exact get_cons_set_perm xs j' hj' x
    | succ i' =>
      cases j with
      | zero =>
        have hi' : i' < xs.length := by simpa using hi
        show (xs.get ⟨i', hi'⟩ :: xs.set i' x).Perm (x :: xs)
        exact get_cons_set_perm xs i' hi' x
      | succ j' =>
        have hi' : i' < xs.length := by simpa using hi
        have hj' : j' < xs.length := by simpa using hj
        show (x :: (xs.set i' (xs.get ⟨j', hj'⟩)).set j' (xs.get ⟨i', hi'⟩)).Perm
          (x :: xs)
        exact (ih i' j' hi' hj').cons x

/-- `listSwap` always yields a permutation (out-of-bounds indices leave the
list unchanged). -/
theorem listSwap_perm {α : Type} (l : List α) (i j : ℕ) :
    (listSwap l i j).Perm l := by
  unfold listSwap
  cases hi : l[i]? with
  | none => exact List.Perm.refl l
  | some a =>
    cases hj : l[j]? with
    | none => exact List.Perm.refl l
    | some b =>
      obtain ⟨hi', ha⟩ := List.getElem?_eq_some.mp hi
      obtain ⟨hj', hb⟩ := List.getElem?_eq_some.mp hj
      have hga : l.get ⟨i, hi'⟩ = a := ha
      have hgb : l.get ⟨j, hj'⟩ = b := hb
      rw [← hga, ← hgb]
      exact set_set_perm l i j hi' hj'

/-- The Fisher–Yates loop yields a permutation. -/
theorem shuffleGo_perm {α : Type} (rnd : ℕ → ℝ) :
    ∀ (i k : ℕ) (l : List α), (shuffleGo rnd l i k).Perm l := by
  intro i
  induction i with
  | zero => intro k l; exact List.Perm.refl l
  | succ i ih =>
    intro k l
    show (shuffleGo rnd (listSwap l (i + 1) ⌊rnd k * ((i : ℝ) + 2)⌋₊) i (k + 1)).Perm l
    exact (ih (k + 1) _).trans (listSwap_perm l (i + 1) _)

/-- `shuffleArray` yields a permutation of its input. -/
theorem shuffleArray_perm {α : Type} (l : List α) (rnd : ℕ → ℝ) :
    (shuffleArray l rnd).Perm l :=
  shuffleGo_perm rnd (l.length - 1) 0 l

/-- `predict` never touches the training history. -/
theorem predict_history (net : Network) (inputs : Option (List ℝ)) :
    (net.predict inputs).2.trainingHistory = net.trainingHistory := by
  unfold Network.predict
  cases hv : net.validatePredictionInputs inputs with
  | error e => rfl
  | ok u =>
    cases u
    dsimp only
    cases hg : Network.predictGo (inputs.getD []) net.layers with
    | mk res ls => cases res <;> rfl

/-- `backpropagate` never touches the training history. -/
theorem backpropagate_history (net : Network) (targets : Option (List ℝ)) :
    (net.backpropagate targets).2.trainingHistory = net.trainingHistory := by
  unfold Network.backpropagate
  split
  · rfl
  next lastLayer restRev hrev =>
    cases hbo : lastLayer.backwardOutput targets net.learningRate.toReal with
    | mk fst l' =>
      cases fst with
      | error e => rfl
      | ok deltas =>
        cases hh : Network.backHiddenGo net.learningRate.toReal l' deltas restRev with
        | mk res lsRev => rfl

/-- The per-example loop never touches the training history. -/
theorem runExamples_history :
    ∀ (d : List TrainExample) (net : Network) (tot : ℝ),
      (Network.runExamples net d tot).2.trainingHistory = net.trainingHistory := by
  intro d
  induction d with
  | nil => intro net tot; rfl
  | cons ex rest ih =>
    intro net tot
    show (Network.runExamples net (ex :: rest) tot).2.trainingHistory = _
    simp only [Network.runExamples]
    cases hp : net.predict ex.input with
    | mk res net1 =>
      have h1 : net1.trainingHistory = net.trainingHistory := by
        have h0 := predict_history net ex.input
        rw [hp] at h0
        exact h0
      cases res with
      | error e => exact h1
      | ok out =>
        dsimp only
        cases hc : Network.calculateError out ex.target with
        | error e => exact h1
        | ok err =>
          dsimp only
          cases hb : net1.backpropagate ex.target with
          | mk res2 net2 =>
            have h2 : net2.trainingHistory = net1.trainingHistory := by
              have h0 := backpropagate_history net1 ex.target
              rw [hb] at h0
              exact h0
            cases res2 with
            | error e => exact h2.trans h1
            | ok u2 =>
              cases u2
              dsimp only
              exact (ih net2 (tot + err)).trans (h2.trans h1)

/-- C6: each call of `trainEpoch` processes a fresh Fisher–Yates
permutation of the full example set; for each example in the shuffled
order it runs one forward pass (`predict`), accumulates that example's
squared-error loss, and applies that example's backpropagation update
immediately, so the next example already sees the updated weights; the
epoch itself leaves `trainingHistory` untouched and returns
`totalError / data.length`, which the `train` loop then appends to
`trainingHistory`. -/
theorem trainEpoch_shuffle_online_append :
    (∀ {α : Type} (data : List α) (rnd : ℕ → ℝ), (shuffleArray data rnd).Perm data) ∧
    (∀ (net : Network) (ex : TrainExample) (rest : List TrainExample) (tot : ℝ)
        (out : List ℝ) (net1 : Network) (err : ℝ) (net2 : Network),
      net.predict ex.input = (.ok out, net1) →
      Network.calculateError out ex.target = .ok err →
      net1.backpropagate ex.target = (.ok (), net2) →
      Network.runExamples net (ex :: rest) tot =
        Network.runExamples net2 rest (tot + err)) ∧
    (∀ (net : Network) (data : List TrainExample) (rnd : ℕ → ℝ) (total : ℝ)
        (net' : Network),
      Network.runExamples net (shuffleArray data rnd) 0 = (.ok total, net') →
      net.trainEpoch data rnd = (.ok (total / data.length), net')) ∧
    (∀ (net : Network) (data : List TrainExample) (rnd : ℕ → ℝ),
      (net.trainEpoch data rnd).2.trainingHistory = net.trainingHistory) ∧
    (∀ (data : List TrainExample) (opts : TrainOptions) (rnd : ℕ → ℝ)
        (rem epoch : ℕ) (best : JsNum) (pat : ℕ) (net net1 : Network) (err : ℝ),
      net.trainEpoch data (fun k => rnd (epoch * (data.length - 1) + k)) =
        (.ok err, net1) →
      opts.validationData = none →
      Network.trainLoop data opts rnd (rem + 1) epoch best pat net =
        Network.trainLoop data opts rnd rem (epoch + 1) best pat
          { net1 with trainingHistory := net1.trainingHistory ++ [err] }) := by
  refine ⟨?_, ?_, ?_, ?_, ?_⟩
  · intro α data rnd
    exact shuffleArray_perm data rnd
  · intro net ex rest tot out net1 err net2 hp hc hb
    simp [Network.runExamples, hp, hc, hb]
  · intro net data rnd total net' hrun
    unfold Network.trainEpoch
    dsimp only
    rw [hrun]
  · intro net data rnd
    unfold Network.trainEpoch
    dsimp only
    cases hr : Network.runExamples net (shuffleArray data rnd) 0 with
    | mk res net' =>
      have h0 := runExamples_history (shuffleArray data rnd) net 0
      rw [hr] at h0
      cases res <;> exact h0
  · intro data opts rnd rem epoch best pat net net1 err hte hvd
    simp only [Network.trainLoop]
    rw [hte]
    dsimp only
    rw [hvd]

/-- A compiled one-layer demo network used by the concrete training runs. -/
noncomputable def demoNet2 : Network where
  layers := [demoLayer]
  learningRate := .fin 0.1
  trainingHistory := []
  isCompiled := true

/-- `demoNet2` after one forward pass on `[1]` (the weight and bias are
`0`, so the cached output is `0`); the zero delta of the subsequent
backpropagation leaves it unchanged. -/
noncomputable def demoNet2Cached : Network where
  layers := [{ neurons := [{ weights := [0], bias := 0, lastInputs := some [1],
                             lastOutput := some 0 }]
               activationFunction := activations.linear
               outputs := [0]
               size := 1
               inputSize := 1 }]
  learningRate := .fin 0.1
  trainingHistory := []
  isCompiled := true

/-- Witness for C6: one concrete online step — forward pass, loss, and
immediate backpropagation — on `demoNet2`. -/
theorem trainEpoch_shuffle_online_append_witness :
    demoNet2.predict (some [1]) = (.ok [0], demoNet2Cached) ∧
    Network.calculateError [0] (some [(0 : ℝ)]) = .ok 0 ∧
    demoNet2Cached.backpropagate (some [0]) = (.ok (), demoNet2Cached) ∧
    Network.runExamples demoNet2 [⟨some [1], some [0]⟩] 0 =
      Network.runExamples demoNet2Cached [] (0 + 0) := by
  have hp : demoNet2.predict (some [1]) = (.ok [0], demoNet2Cached) := by
    norm_num [Network.predict, Network.validatePredictionInputs, Network.predictGo,
      Layer.forward, Layer.validateInputs, Layer.forwardNeurons, Neuron.forward,
      Neuron.validateInputs, Neuron.calculateWeightedSum, activations.linear,
      demoNet2, demoLayer, demoNet2Cached]
  have hc : Network.calculateError [(0 : ℝ)] (some [(0 : ℝ)]) = .ok 0 := by
    norm_num [Network.calculateError]
  have hb : demoNet2Cached.backpropagate (some [0]) = (.ok (), demoNet2Cached) := by
    norm_num [Network.backpropagate, Layer.backwardOutput, Layer.validateTargets,
      Layer.backOutGo, Neuron.updateWeights, Network.backHiddenGo, JsNum.toReal,
      activations.linear, demoNet2Cached]
  exact ⟨hp, hc, hb,
    trainEpoch_shuffle_online_append.2.1 demoNet2 ⟨some [1], some [0]⟩ [] 0 [0]
      demoNet2Cached 0 demoNet2Cached hp hc hb⟩

/-! Claim C5: length of the training history. -/

/-- The validation loop never touches the training history. -/
theorem evalValGo_history :
    ∀ (d : List TrainExample) (net : Network) (tot : ℝ),
      (Network.evalValGo net tot d).2.trainingHistory = net.trainingHistory := by
  intro d
  induction d with
  | nil => intro net tot; rfl
  | cons ex rest ih =>
    intro net tot
    show (Network.evalValGo net tot (ex :: rest)).2.trainingHistory = _
    simp only [Network.evalValGo]
    cases hp : net.predict ex.input with
    | mk res net1 =>
      have h1 : net1.trainingHistory = net.trainingHistory := by
        have h0 := predict_history net ex.input
        rw [hp] at h0
        exact h0
      cases res with
      | error e => exact h1
      | ok out =>
        dsimp only
        cases hc : Network.calculateError out ex.target with
        | error e => exact h1
        | ok err =>
          dsimp only
          exact (ih net1 (tot + err)).trans h1

/-- `evaluateValidation` never touches the training history. -/
theorem evaluateValidation_history (net : Network) (vd : List TrainExample) :
    (net.evaluateValidation vd).2.trainingHistory = net.trainingHistory := by
  unfold Network.evaluateValidation
  cases he : Network.evalValGo net 0 vd with
  | mk res net' =>
    have h0 := evalValGo_history vd net 0
    rw [he] at h0
    cases res <;> exact h0


/-- A single epoch never touches the training history (only `trainLoop`
itself pushes onto it). -/
theorem trainEpoch_history (net : Network) (d : List TrainExample)
    (rnd : ℕ → ℝ) :
    (net.trainEpoch d rnd).2.trainingHistory = net.trainingHistory := by
  have he : net.trainEpoch d rnd =
      match Network.runExamples net (shuffleArray d rnd) 0 with
      | (.error e, net') => (.error e, net')
      | (.ok total, net') => (.ok (total / (d.length : ℝ)), net') := rfl
  cases hr : Network.runExamples net (shuffleArray d rnd) 0 with
  | mk res net' =>
    have h0 := runExamples_history (shuffleArray d rnd) net 0
    rw [hr] at h0
    rw [he, hr]
    cases res <;> exact h0

/-- The epoch loop grows the history by at most `remaining` entries, and by
exactly `remaining` when it succeeds with early stopping disabled. -/
theorem trainLoop_history_length (data : List TrainExample) (opts : TrainOptions)
    (rnd : ℕ → ℝ) :
    ∀ (rem epoch : ℕ) (best : JsNum) (pat : ℕ) (net : Network),
      (Network.trainLoop data opts rnd rem epoch best pat net).2.trainingHistory.length
          ≤ net.trainingHistory.length + rem ∧
      (opts.esActive = false →
        (Network.trainLoop data opts rnd rem epoch best pat net).1 = .ok () →
        (Network.trainLoop data opts rnd rem epoch best pat
            net).2.trainingHistory.length = net.trainingHistory.length + rem) := by
  intro rem
  induction rem with
  | zero => intro epoch best pat net; exact ⟨le_refl _, fun _ _ => rfl⟩
  | succ rem ih =>
    intro epoch best pat net
    have hloop : Network.trainLoop data opts rnd (rem + 1) epoch best pat net =
        match net.trainEpoch data (fun k => rnd (epoch * (data.length - 1) + k)) with
        | (.error e, net1) => (.error e, net1)
        | (.ok epochError, net1) =>
          let net2 := { net1 with
            trainingHistory := net1.trainingHistory ++ [epochError] }
          match opts.validationData, opts.esActive with
          | some vd, true =>
            match net2.evaluateValidation vd with
            | (.error e, net3) => (.error e, net3)
            | (.ok validationError, net3) =>
              if JsNum.ltFin validationError best then
                Network.trainLoop data opts rnd rem (epoch + 1)
                  (.fin validationError) 0 net3
              else
                if ((pat + 1 : ℕ) : ℚ) ≥ opts.earlyStoppingPatience.getD 0 then
                  (.ok (), net3)
                else
                  Network.trainLoop data opts rnd rem (epoch + 1) best (pat + 1) net3
          | _, _ =>
            Network.trainLoop data opts rnd rem (epoch + 1) best pat net2 := rfl
    rw [hloop]
    cases hte : net.trainEpoch data (fun k => rnd (epoch * (data.length - 1) + k)) with
    | mk res net1 =>
      have hh1 : net1.trainingHistory = net.trainingHistory := by
        have h0 := trainEpoch_history net data
          (fun k => rnd (epoch * (data.length - 1) + k))
        rw [hte] at h0
        exact h0
      have hlen1 : net1.trainingHistory.length = net.trainingHistory.length := by
        rw [hh1]
      cases res with
      | error e =>
        refine ⟨by rw [hh1]; omega, fun _ hok => ?_⟩
        simp at hok
      | ok err =>
        dsimp only
        cases hvd : opts.validationData with
        | none =>
          cases hes0 : opts.esActive with
          | false =>
            dsimp only
            refine ⟨?_, ?_⟩
            · have h0 := (ih (epoch + 1) best pat
                { net1 with trainingHistory := net1.trainingHistory ++ [err] }).1
              simp only [List.length_append, List.length_singleton] at h0
              omega
            · intro _ hok
              have h0 := (ih (epoch + 1) best pat
                { net1 with trainingHistory := net1.trainingHistory ++ [err] }).2
                hes0 hok
              simp only [List.length_append, List.length_singleton] at h0
              omega
          | true =>
            dsimp only
            refine ⟨?_, ?_⟩
            · have h0 := (ih (epoch + 1) best pat
                { net1 with trainingHistory := net1.trainingHistory ++ [err] }).1
              simp only [List.length_append, List.length_singleton] at h0
              omega
            · intro hesf
              simp at hesf
        | some vd =>
          cases hes : opts.esActive with
          | false =>
            dsimp only
            refine ⟨?_, ?_⟩
            · have h0 := (ih (epoch + 1) best pat
                { net1 with trainingHistory := net1.trainingHistory ++ [err] }).1
              simp only [List.length_append, List.length_singleton] at h0
              omega
            · intro _ hok
              have h0 := (ih (epoch + 1) best pat
                { net1 with trainingHistory := net1.trainingHistory ++ [err] }).2
                hes hok
              simp only [List.length_append, List.length_singleton] at h0
              omega
          | true =>
            dsimp only
            cases hev : Network.evaluateValidation
                { net1 with trainingHistory := net1.trainingHistory ++ [err] } vd with
            | mk res2 net3 =>
              have hh3 : net3.trainingHistory.length
                  = net.trainingHistory.length + 1 := by
                have h0 := evaluateValidation_history
                  { net1 with trainingHistory := net1.trainingHistory ++ [err] } vd
                rw [hev] at h0
                rw [h0]
                simp only [List.length_append, List.length_singleton, hlen1]
              cases res2 with
              | error e =>
                refine ⟨by rw [hh3]; omega, fun hesf _ => ?_⟩
                simp at hesf
              | ok ve =>
                dsimp only
                refine ⟨?_, fun hesf _ => ?_⟩
                · split
                  · have h0 := (ih (epoch + 1) (.fin ve) 0 net3).1
                    rw [hh3] at h0
                    omega
                  · split
                    · rw [hh3]
                      omega
                    · have h0 := (ih (epoch + 1) best (pat + 1) net3).1
                      rw [hh3] at h0
                      omega
                · simp at hesf

/-- When `prepareForTraining` succeeds, the network it hands to the epoch
loop has an empty training history. -/
theorem prepareForTraining_ok_history (net : Network) (d : List TrainExample)
    (h : (net.prepareForTraining d).1 = .ok ()) :
    (net.prepareForTraining d).2.trainingHistory = [] := by
  unfold Network.prepareForTraining at h ⊢
  cases hc : (if ¬net.isCompiled then net.compile else (.ok (), net)) with
  | mk res net1 =>
    rw [hc] at h
    cases res with
    | error e => simp at h
    | ok u =>
      cases u
      dsimp only at h ⊢
      cases hl : net1.layers with
      | nil => rfl
      | cons l0 rest =>
        dsimp only
        split
        · rfl
        · split <;> try rfl
          split <;> rfl

/-- C5: amended accounting of `trainingHistory.length`.  A successful
`train` run leaves at most `epochs` entries, and exactly `epochs` entries
when early stopping is not active (no validation data or falsy patience).
When early stopping does trigger — the validation error fails to improve
and the incremented patience counter reaches the threshold — the loop
stops immediately, but only after the triggering epoch's error has been
pushed, so that epoch is itself recorded: the history length equals the
number of epochs actually executed, which is *at most* `epochs` and can
equal `epochs` when the trigger lands on the final epoch (the original
"strictly less whenever early stopping triggers" fails there). -/
theorem train_history_length_amended :
    (∀ (net : Network) (td : Option (List TrainExample)) (epochs : ℕ)
        (opts : TrainOptions) (rnd : ℕ → ℝ),
      (net.train td epochs opts rnd).1 = .ok () →
      (net.train td epochs opts rnd).2.trainingHistory.length ≤ epochs) ∧
    (∀ (net : Network) (td : Option (List TrainExample)) (epochs : ℕ)
        (opts : TrainOptions) (rnd : ℕ → ℝ),
      opts.esActive = false →
      (net.train td epochs opts rnd).1 = .ok () →
      (net.train td epochs opts rnd).2.trainingHistory.length = epochs) ∧
    (∀ (data : List TrainExample) (opts : TrainOptions) (rnd : ℕ → ℝ)
        (rem epoch : ℕ) (best : JsNum) (pat : ℕ) (net net1 net3 : Network)
        (err : ℝ) (vd : List TrainExample) (ve : ℝ),
      net.trainEpoch data (fun k => rnd (epoch * (data.length - 1) + k)) =
        (.ok err, net1) →
      opts.validationData = some vd →
      opts.esActive = true →
      Network.evaluateValidation
        { net1 with trainingHistory := net1.trainingHistory ++ [err] } vd =
        (.ok ve, net3) →
      JsNum.ltFin ve best = false →
      ((pat + 1 : ℕ) : ℚ) ≥ opts.earlyStoppingPatience.getD 0 →
      Network.trainLoop data opts rnd (rem + 1) epoch best pat net =
          (.ok (), net3) ∧
        net3.trainingHistory.length = net.trainingHistory.length + 1) := by
  have htr : ∀ (net : Network) (td : Option (List TrainExample)) (epochs : ℕ)
      (opts : TrainOptions) (rnd : ℕ → ℝ),
      net.train td epochs opts rnd =
        match Network.validateTrainingData td with
        | .error e => (.error e, net)
        | .ok () =>
          match net.prepareForTraining (td.getD []) with
          | (.error e, net1) => (.error e, net1)
          | (.ok (), net1) =>
            Network.trainLoop (td.getD []) opts rnd epochs 0 .posInf 0 net1 :=
    fun _ _ _ _ _ => rfl
  refine ⟨?_, ?_, ?_⟩
  · intro net td epochs opts rnd hok
    rw [htr] at hok ⊢
    cases hv : Network.validateTrainingData td with
    | error e => rw [hv] at hok; simp at hok
    | ok u =>
      cases u
      rw [hv] at hok
      dsimp only at hok ⊢
      cases hp : net.prepareForTraining (td.getD []) with
      | mk res net1 =>
        rw [hp] at hok
        cases res with
        | error e => simp at hok
        | ok u2 =>
          cases u2
          dsimp only at hok ⊢
          have hh : net1.trainingHistory = [] := by
            have h1 := prepareForTraining_ok_history net (td.getD [])
              (by rw [hp])
            rw [hp] at h1
            exact h1
          have h0 := (trainLoop_history_length (td.getD []) opts rnd epochs
            0 .posInf 0 net1).1
          rw [hh] at h0
          simpa using h0
  · intro net td epochs opts rnd hes hok
    rw [htr] at hok ⊢
    cases hv : Network.validateTrainingData td with
    | error e => rw [hv] at hok; simp at hok
    | ok u =>
      cases u
      rw [hv] at hok
      dsimp only at hok ⊢
      cases hp : net.prepareForTraining (td.getD []) with
      | mk res net1 =>
        rw [hp] at hok
        cases res with
        | error e => simp at hok
        | ok u2 =>
          cases u2
          dsimp only at hok ⊢
          have hh : net1.trainingHistory = [] := by
            have h1 := prepareForTraining_ok_history net (td.getD [])
              (by rw [hp])
            rw [hp] at h1
            exact h1
          have h0 := (trainLoop_history_length (td.getD []) opts rnd epochs
            0 .posInf 0 net1).2 hes hok
          rw [hh] at h0
          simpa using h0
  · intro data opts rnd rem epoch best pat net net1 net3 err vd ve
      hte hvd hes hev hlt hge
    have hh1 : net1.trainingHistory = net.trainingHistory := by
      have h0 := trainEpoch_history net data
        (fun k => rnd (epoch * (data.length - 1) + k))
      rw [hte] at h0
      exact h0
    have hloop : Network.trainLoop data opts rnd (rem + 1) epoch best pat net =
        match net.trainEpoch data (fun k => rnd (epoch * (data.length - 1) + k)) with
        | (.error e, n1) => (.error e, n1)
        | (.ok epochError, n1) =>
          let net2 := { n1 with
            trainingHistory := n1.trainingHistory ++ [epochError] }
          match opts.validationData, opts.esActive with
          | some vdl, true =>
            match net2.evaluateValidation vdl with
            | (.error e, n3) => (.error e, n3)
            | (.ok validationError, n3) =>
              if JsNum.ltFin validationError best then
                Network.trainLoop data opts rnd rem (epoch + 1)
                  (.fin validationError) 0 n3
              else
                if ((pat + 1 : ℕ) : ℚ) ≥ opts.earlyStoppingPatience.getD 0 then
                  (.ok (), n3)
                else
                  Network.trainLoop data opts rnd rem (epoch + 1) best (pat + 1) n3
          | _, _ =>
            Network.trainLoop data opts rnd rem (epoch + 1) best pat net2 := rfl
    constructor
    · rw [hloop, hte]
      dsimp only
      rw [hvd, hes]
      dsimp only
      rw [hev]
      dsimp only
      rw [hlt]
      simp only [Bool.false_eq_true, if_false]
      rw [if_pos hge]
    · have h0 := evaluateValidation_history
        { net1 with trainingHistory := net1.trainingHistory ++ [err] } vd
      rw [hev] at h0
      have h1 : net3.trainingHistory = net1.trainingHistory ++ [err] := h0
      rw [h1, hh1]
      simp

/-- C5 counterexample layer: one linear neuron with weight `0` and bias
`0` and the given caches (the cache-free variant is reachable by
`addLayer(1, linear, 1)` when every random draw is `0.5`; the cached
variants arise from forward passes on `[1]`/`[0]`). -/
noncomputable def c5Layer (li : Option (List ℝ)) (lo : Option ℝ)
    (outs : List ℝ) : Layer where
  neurons := [{ weights := [0], bias := 0, lastInputs := li, lastOutput := lo }]
  activationFunction := activations.linear
  outputs := outs
  size := 1
  inputSize := 1

/-- See `c5Layer`: a compiled single-layer network around it with learning
rate `0.1` and the given training history. -/
noncomputable def c5Net (hist : List ℝ) (li : Option (List ℝ)) (lo : Option ℝ)
    (outs : List ℝ) : Network where
  layers := [c5Layer li lo outs]
  learningRate := .fin 0.1
  trainingHistory := hist
  isCompiled := true

/-- C5 counterexample: with one training example, a validation example the
network never improves on, and patience `1`, early stopping triggers at
the second epoch.  `train` with `epochs = 3` therefore stops with only 2
recorded epochs (strictly fewer, as claimed).  But the identical call with
`epochs = 2` hits the very same trigger on its *final* epoch and returns
with `trainingHistory.length = 2 = epochs`: early stopping triggered, yet
the history length is not strictly less than `epochs`. -/
theorem early_stopping_trigger_on_final_epoch :
    ((c5Net [] none none []).train (some [⟨some [1], some [0]⟩]) 2
        ⟨some [⟨some [0], some [1]⟩], some 1⟩ (fun _ => 0)).1 = .ok () ∧
    ((c5Net [] none none []).train (some [⟨some [1], some [0]⟩]) 2
        ⟨some [⟨some [0], some [1]⟩], some 1⟩ (fun _ => 0)).2.trainingHistory.length
      = 2 ∧
    ((c5Net [] none none []).train (some [⟨some [1], some [0]⟩]) 3
        ⟨some [⟨some [0], some [1]⟩], some 1⟩ (fun _ => 0)).2.trainingHistory.length
      = 2 := by
  refine ⟨?_, ?_, ?_⟩ <;>
    norm_num [Network.train, Network.validateTrainingData, Network.validateSizesGo,
      Network.prepareForTraining, Network.trainLoop, Network.trainEpoch,
      shuffleArray, shuffleGo, Network.runExamples, Network.predict,
      Network.validatePredictionInputs, Network.predictGo, Layer.forward,
      Layer.validateInputs, Layer.forwardNeurons, Neuron.forward,
      Neuron.validateInputs, Neuron.calculateWeightedSum, Network.calculateError,
      Network.backpropagate, Layer.backwardOutput, Layer.validateTargets,
      Layer.backOutGo, Neuron.updateWeights, Network.backHiddenGo,
      Network.evaluateValidation, Network.evalValGo, TrainOptions.esActive,
      JsNum.ltFin, JsNum.toReal, activations.linear, c5Net, c5Layer]

/-- Concrete instance of the amended history-length accounting: one epoch
of training without early stopping records exactly one history entry. -/
theorem train_history_length_amended_witness :
    (⟨none, none⟩ : TrainOptions).esActive = false ∧
    ((c5Net [] none none []).train (some [⟨some [1], some [0]⟩]) 1
        ⟨none, none⟩ (fun _ => 0)).1 = .ok () ∧
    ((c5Net [] none none []).train (some [⟨some [1], some [0]⟩]) 1
        ⟨none, none⟩ (fun _ => 0)).2.trainingHistory.length = 1 := by
  have hes : (⟨none, none⟩ : TrainOptions).esActive = false := rfl
  have hok : ((c5Net [] none none []).train (some [⟨some [1], some [0]⟩]) 1
      ⟨none, none⟩ (fun _ => 0)).1 = .ok () := by
    norm_num [Network.train, Network.validateTrainingData, Network.validateSizesGo,
      Network.prepareForTraining, Network.trainLoop, Network.trainEpoch,
      shuffleArray, shuffleGo, Network.runExamples, Network.predict,
      Network.validatePredictionInputs, Network.predictGo, Layer.forward,
      Layer.validateInputs, Layer.forwardNeurons, Neuron.forward,
      Neuron.validateInputs, Neuron.calculateWeightedSum, Network.calculateError,
      Network.backpropagate, Layer.backwardOutput, Layer.validateTargets,
      Layer.backOutGo, Neuron.updateWeights, Network.backHiddenGo,
      TrainOptions.esActive, JsNum.toReal, activations.linear, c5Net, c5Layer]
  exact ⟨hes, hok, train_history_length_amended.2.1 (c5Net [] none none [])
    (some [⟨some [1], some [0]⟩]) 1 ⟨none, none⟩ (fun _ => 0) hes hok⟩
